import Mathlib

/-!
Verification development for the Wasm module parser of
`smart-contracts/wasm-transform` (`src/parse.rs`, `src/utils.rs`).

The Rust code is shallowly embedded: the byte cursor becomes an explicit
`Cursor` record over a `List Nat` of bytes, every `Parseable` impl becomes a
function `Cursor → Except String (α × Cursor)`, and the `?` early returns of
Rust become explicit matches on `Except`.  Machine integers are modelled as
`Nat`/`Int` with explicit range checks where the Rust code performs
`try_from` conversions.  Recursive instruction decoding is made total with a
fuel parameter; fuel exhaustion is reported as an error, and concrete runs
are always given enough fuel (one unit per input byte suffices because each
recursive call is preceded by at least one consumed byte).
-/

namespace Wasm

/-- A byte of input.  Rust's `u8`; we use `Nat` (inputs use values < 256). -/
abbrev Byte := Nat

/-- The byte cursor: `std::io::Cursor<&[u8]>` — a borrowed byte array plus a
position.  (Rust's position is a `u64`; positions here are `Nat`.) -/
structure Cursor where
  data : List Byte
  pos  : Nat
  deriving Repr, DecidableEq

/-- Result of parsing one value: the Rust `ParseResult<A>` together with the
advanced cursor.  An `Except.error` models `bail!`/`ensure!` failure, which
aborts the whole pipeline (no cursor survives an error). -/
abbrev ParseResult (α : Type) := Except String (α × Cursor)

/-- Whether an `Except` computation failed. -/
def isErr {ε α : Type} : Except ε α → Bool
  | .error _ => true
  | .ok _ => false

/-- The bytes of the input between positions `a` and `b`. -/
def slice (l : List Byte) (a b : Nat) : List Byte := (l.drop a).take (b - a)

/-- `cursor.read_exact(&mut [0u8; 1])`: read a single byte (the `Parseable`
impl for `Byte`), advancing the position by one; fails at end of input. -/
def readByte (c : Cursor) : ParseResult Byte :=
  match c.data[c.pos]? with
  | some b => .ok (b, ⟨c.data, c.pos + 1⟩)
  | none => .error "EOF"

/-- `read_exact` with an `n`-byte buffer (used for the magic hash and the
version in `parse_skeleton`). -/
def readBytes : Nat → Cursor → ParseResult (List Byte)
  | 0, c => .ok ([], c)
  | n + 1, c =>
    match readByte c with
    | .error e => .error e
    | .ok (b, c1) =>
      match readBytes n c1 with
      | .error e => .error e
      | .ok (bs, c2) => .ok (b :: bs, c2)

/-- `leb128::read::unsigned` on `cursor.take(limit)`: unsigned LEB128 with at
most `limit` bytes readable.  `shift` and `acc` are the loop state of the
`leb128` crate; the crate's overflow check at `shift == 63` is included.
(The crate consumes trailing continuation bytes before reporting overflow;
since an error aborts the pipeline this is not observable and we fail
directly.) -/
def lebUnsigned : Nat → Nat → Nat → Cursor → ParseResult Nat
  | 0, _, _, _ => .error "EOF while reading LEB128"
  | limit + 1, shift, acc, c =>
    match readByte c with
    | .error e => .error e
    | .ok (b, c1) =>
      if shift = 63 ∧ b ≠ 0x00 ∧ b ≠ 0x01 then .error "LEB128 overflow"
      else if b &&& 0x80 = 0 then .ok (acc ||| ((b &&& 0x7F) <<< shift), c1)
      else lebUnsigned limit (shift + 7) (acc ||| ((b &&& 0x7F) <<< shift)) c1

/-- `Parseable` for `u32`: LEB128 through `take(5)` (5 = ceil(32/7)) followed
by `u32::try_from`. -/
def parseU32 (c : Cursor) : ParseResult Nat :=
  match lebUnsigned 5 0 0 c with
  | .error e => .error e
  | .ok (res, c1) => if res < 2 ^ 32 then .ok (res, c1) else .error "u32 out of range"

/-- `Parseable` for `u64`: LEB128 through `take(10)` (10 = ceil(64/7)). -/
def parseU64 (c : Cursor) : ParseResult Nat :=
  match lebUnsigned 10 0 0 c with
  | .error e => .error e
  | .ok (res, c1) => .ok (res, c1)

/-- Interpret a bit pattern (reduced mod `2^64`) as a two's complement
`i64` value. -/
def toInt64 (n : Nat) : Int :=
  if n % 2 ^ 64 < 2 ^ 63 then ((n % 2 ^ 64 : Nat) : Int)
  else ((n % 2 ^ 64 : Nat) : Int) - 2 ^ 64

/-- `leb128::read::signed` on `cursor.take(limit)`: signed LEB128.  The
accumulator tracks the `i64` bit pattern (mod `2^64`, matching the wrapping
`<<`/`|=` of the crate); sign extension `result |= !0 << shift` becomes
OR-ing in the bits `shift..63`. -/
def lebSigned : Nat → Nat → Nat → Cursor → ParseResult Int
  | 0, _, _, _ => .error "EOF while reading LEB128"
  | limit + 1, shift, acc, c =>
    match readByte c with
    | .error e => .error e
    | .ok (b, c1) =>
      if shift = 63 ∧ b ≠ 0x00 ∧ b ≠ 0x7F then .error "LEB128 overflow"
      else if b &&& 0x80 = 0 then
        if shift + 7 < 64 ∧ b &&& 0x40 ≠ 0 then
          .ok (toInt64 (((acc ||| (((b &&& 0x7F) <<< shift) % 2 ^ 64)) % 2 ^ 64) |||
            (2 ^ 64 - 2 ^ (shift + 7))), c1)
        else .ok (toInt64 ((acc ||| (((b &&& 0x7F) <<< shift) % 2 ^ 64)) % 2 ^ 64), c1)
      else lebSigned limit (shift + 7) ((acc ||| (((b &&& 0x7F) <<< shift) % 2 ^ 64)) % 2 ^ 64) c1

/-- `Parseable` for `i32`: signed LEB128 through `take(5)` followed by
`i32::try_from`. -/
def parseI32 (c : Cursor) : ParseResult Int :=
  match lebSigned 5 0 0 c with
  | .error e => .error e
  | .ok (res, c1) =>
    if -(2 ^ 31) ≤ res ∧ res < 2 ^ 31 then .ok (res, c1) else .error "i32 out of range"

/-- `Parseable` for `i64`: signed LEB128 through `take(10)`. -/
def parseI64 (c : Cursor) : ParseResult Int :=
  match lebSigned 10 0 0 c with
  | .error e => .error e
  | .ok (res, c1) => .ok (res, c1)

/-- Worker for `lebEncode`, structurally recursive on a fuel argument so
that it reduces definitionally; `n + 1` units of fuel always suffice since
the value shrinks by a factor of 128 each step. -/
def lebEncodeAux : Nat → Nat → List Byte
  | 0, _ => []
  | fuel + 1, n =>
    if n < 0x80 then [n] else (n % 0x80 + 0x80) :: lebEncodeAux fuel (n / 0x80)

/-- Canonical (minimal) LEB128 encoding of a natural number; used to state
the serialization side of the skeleton round-trip property. -/
def lebEncode (n : Nat) : List Byte := lebEncodeAux (n + 1) n

/-! ## Core constants (`parse.rs`) -/

/-- Maximum number of bytes preallocated when parsing vector-like things. -/
def MAX_PREALLOCATED_BYTES : Nat := 1000

/-- The 4-byte magic hash `\0asm`. -/
def MAGIC_HASH : List Byte := [0x00, 0x61, 0x73, 0x6D]

/-- The supported 4-byte version. -/
def VERSION : List Byte := [0x01, 0x00, 0x00, 0x00]

/-! ## Skeleton data types and parser -/

/-- All supported section IDs (`SectionId` in `parse.rs`, declared with
derived `Ord`, i.e. ordered by declaration order / discriminant). -/
inductive SectionId
  | Custom | «Type» | Import | Function | Table | Memory | Global
  | Export | Start | Element | Code | Data
  deriving Repr, DecidableEq

/-- The numeric discriminant of a section ID (the value the Rust enum
carries, which is also what the derived `Ord` compares). -/
def SectionId.toNat : SectionId → Nat
  | .Custom => 0
  | .«Type» => 1
  | .Import => 2
  | .Function => 3
  | .Table => 4
  | .Memory => 5
  | .Global => 6
  | .Export => 7
  | .Start => 8
  | .Element => 9
  | .Code => 10
  | .Data => 11

/-- A section carved out of a module with no further processing
(`UnparsedSection<'a>`); `bytes` is the borrowed slice of content bytes. -/
structure UnparsedSection where
  section_id : SectionId
  bytes      : List Byte
  deriving Repr, DecidableEq

/-- Skeleton of a module (`Skeleton<'a>`): one optional unparsed section per
non-custom kind plus the custom sections in input order.  The Rust fields
`import`/`export` are Lean keywords, hence the quoted names. -/
structure Skeleton where
  ty : Option UnparsedSection
  «import» : Option UnparsedSection
  func : Option UnparsedSection
  table : Option UnparsedSection
  memory : Option UnparsedSection
  global : Option UnparsedSection
  «export» : Option UnparsedSection
  start : Option UnparsedSection
  element : Option UnparsedSection
  code : Option UnparsedSection
  data : Option UnparsedSection
  custom : List UnparsedSection
  deriving Repr, DecidableEq

/-- `Parseable` for `SectionId`: one byte, mapped through the section-id
table; unknown ids are an error. -/
def parseSectionId (c : Cursor) : ParseResult SectionId :=
  match readByte c with
  | .error e => .error e
  | .ok (b, c1) =>
    match b with
    | 0 => .ok (.Custom, c1)
    | 1 => .ok (.«Type», c1)
    | 2 => .ok (.Import, c1)
    | 3 => .ok (.Function, c1)
    | 4 => .ok (.Table, c1)
    | 5 => .ok (.Memory, c1)
    | 6 => .ok (.Global, c1)
    | 7 => .ok (.Export, c1)
    | 8 => .ok (.Start, c1)
    | 9 => .ok (.Element, c1)
    | 10 => .ok (.Code, c1)
    | 11 => .ok (.Data, c1)
    | _ => .error "Unknown section id"

/-- `Parseable` for `&'a [u8]`: a `u32` length followed by that many bytes,
returned as a slice of the input; the cursor is advanced past them.  Fails
("Malformed byte array") when fewer bytes remain. -/
def parseByteSlice (c : Cursor) : ParseResult (List Byte) :=
  match parseU32 c with
  | .error e => .error e
  | .ok (len, c1) =>
    if c1.pos + len ≤ c1.data.length then
      .ok ((c1.data.drop c1.pos).take len, ⟨c1.data, c1.pos + len⟩)
    else .error "Malformed byte array"

/-- `Parseable` for `UnparsedSection`: the section id then the content
bytes. -/
def parseUnparsedSection (c : Cursor) : ParseResult UnparsedSection :=
  match parseSectionId c with
  | .error e => .error e
  | .ok (section_id, c1) =>
    match parseByteSlice c1 with
    | .error e => .error e
    | .ok (bytes, c2) => .ok (⟨section_id, bytes⟩, c2)

/-- The section-reading loop of `parse_skeleton`: while input remains, parse
an `UnparsedSection`, enforce `section_id == Custom || section_id >
last_section`, and update `last_section` for non-custom sections.  The Rust
loop stores each section directly into the matching `Skeleton` field; here
the loop returns the sections in input order and `buildSkeleton` performs
the same per-kind dispatch afterwards (custom sections keep their order).
Fuel makes the loop total; each iteration consumes at least one byte, so
`input.length + 1` units always suffice. -/
def parseSectionsLoop : Nat → SectionId → List UnparsedSection → Cursor →
    Except String (List UnparsedSection × Cursor)
  | 0, _, _, _ => .error "out of fuel"
  | fuel + 1, last_section, acc, c =>
    if c.pos < c.data.length then
      match parseUnparsedSection c with
      | .error e => .error e
      | .ok (sec, c1) =>
        if sec.section_id = SectionId.Custom ∨ last_section.toNat < sec.section_id.toNat then
          let last' := if sec.section_id = SectionId.Custom then last_section else sec.section_id
          parseSectionsLoop fuel last' (acc ++ [sec]) c1
        else .error "Section out of place."
    else .ok (acc, c)

/-- The per-kind dispatch of the `parse_skeleton` loop body: assign a parsed
section to its `Skeleton` field (custom sections are appended in order). -/
def assignSection (s : Skeleton) (sec : UnparsedSection) : Skeleton :=
  match sec.section_id with
  | .Custom => { s with custom := s.custom ++ [sec] }
  | .«Type» => { s with ty := some sec }
  | .Import => { s with «import» := some sec }
  | .Function => { s with func := some sec }
  | .Table => { s with table := some sec }
  | .Memory => { s with memory := some sec }
  | .Global => { s with global := some sec }
  | .Export => { s with «export» := some sec }
  | .Start => { s with start := some sec }
  | .Element => { s with element := some sec }
  | .Code => { s with code := some sec }
  | .Data => { s with data := some sec }

/-- The all-`None` skeleton the loop starts from. -/
def emptySkeleton : Skeleton :=
  ⟨none, none, none, none, none, none, none, none, none, none, none, []⟩

def buildSkeleton (secs : List UnparsedSection) : Skeleton :=
  secs.foldl assignSection emptySkeleton

/-- The front half of `parse_skeleton`: check magic hash and version, then
run the section loop, returning the sections in input order together with
the final cursor. -/
def parseSectionsOf (input : List Byte) : Except String (List UnparsedSection × Cursor) :=
  match readBytes 4 ⟨input, 0⟩ with
  | .error e => .error e
  | .ok (magic, c1) =>
    if magic = MAGIC_HASH then
      match readBytes 4 c1 with
      | .error e => .error e
      | .ok (version, c2) =>
        if version = VERSION then
          parseSectionsLoop (input.length + 1) SectionId.Custom [] c2
        else .error "Unsupported version."
    else .error "Unknown magic hash"

/-- `parse_skeleton`: magic, version, ordered sections, and the final
"all input consumed" check (`Leftover bytes.`). -/
def parse_skeleton (input : List Byte) : Except String Skeleton :=
  match parseSectionsOf input with
  | .error e => .error e
  | .ok (secs, c) =>
    if c.pos = input.length then .ok (buildSkeleton secs) else .error "Leftover bytes."

/-- Serialization of one unparsed section, as described on
`UnparsedSection` ("writing the section ID and bytes together with the
length"): the 1-byte kind tag, the LEB128 length of the bytes, then the
bytes.  Modelled from the spec: the writer itself (`output.rs`) is not part
of the sources under review; the spec fixes this exact format. -/
def serializeSection (sec : UnparsedSection) : List Byte :=
  sec.section_id.toNat :: (lebEncode sec.bytes.length ++ sec.bytes)

def serializeSections (secs : List UnparsedSection) : List Byte :=
  match secs with
  | [] => []
  | sec :: rest => serializeSection sec ++ serializeSections rest

/-- Scanner stating that every section-length field of the input is in
canonical (minimal) LEB128 form: it walks the input exactly like the
skeleton loop (section id byte, `u32` length, skip the content bytes) and
compares the bytes the length field occupied against `lebEncode` of its
value.  Used to state the amended round-trip property. -/
def canonicalSectionsLoop : Nat → Cursor → Bool
  | 0, _ => false
  | fuel + 1, c =>
    if c.pos < c.data.length then
      match parseSectionId c with
      | .error _ => false
      | .ok (_, c1) =>
        match parseU32 c1 with
        | .error _ => false
        | .ok (len, c2) =>
          (((c.data.drop c1.pos).take (c2.pos - c1.pos)) == lebEncode len) &&
            canonicalSectionsLoop fuel ⟨c.data, c2.pos + len⟩
    else true


/-- All section-length fields of `input` (scanned after the 8 magic/version
bytes) are canonically encoded. -/
def canonicalLengths (input : List Byte) : Bool :=
  canonicalSectionsLoop (input.length + 1) ⟨input, 8⟩

/-- `strip` from `utils.rs`: remove the custom sections from a skeleton.
(The Rust function mutates in place; the pure form returns the updated
record.) -/
def strip (skeleton : Skeleton) : Skeleton := { skeleton with custom := [] }

/-! ## Module data types

`types.rs` of `wasm-transform` is not among the sources under review; these
declarations are reconstructed from their use in `parse.rs` (field names and
order follow the parsing code) and the wasm-core-1 grammar it implements. -/

/-- Value types: the closed set `{I32, I64}`. -/
inductive ValueType
  | I32 | I64
  deriving Repr, DecidableEq

/-- Block types: empty, or one of the two value types. -/
inductive BlockType
  | EmptyType
  | ValueType (vt : ValueType)
  deriving Repr, DecidableEq

/-- Index aliases (all parsed as `u32`). -/
abbrev TypeIndex := Nat
abbrev FuncIndex := Nat
abbrev TableIndex := Nat
abbrev MemIndex := Nat
abbrev GlobalIndex := Nat
abbrev LocalIndex := Nat
abbrev LabelIndex := Nat

/-- Memory argument of load/store instructions (parsed offset first, then
align, exactly as `parse.rs` reads them). -/
structure MemArg where
  offset : Nat
  align  : Nat
  deriving Repr, DecidableEq

/-- The supported instruction set.  Block/Loop/If own nested instruction
sequences. -/
inductive Instruction
  | Unreachable | Nop
  | Block (bt : BlockType) (seq : List Instruction)
  | Loop (bt : BlockType) (seq : List Instruction)
  | If (ty : BlockType) (then_branch : List Instruction) (else_branch : List Instruction)
  | Br (l : LabelIndex) | BrIf (l : LabelIndex)
  | BrTable (labels : List LabelIndex) (default : LabelIndex)
  | Return | Call (idx : FuncIndex) | CallIndirect (ty : TypeIndex)
  | Drop | Select
  | LocalGet (idx : LocalIndex) | LocalSet (idx : LocalIndex) | LocalTee (idx : LocalIndex)
  | GlobalGet (idx : GlobalIndex) | GlobalSet (idx : GlobalIndex)
  | I32Load (m : MemArg) | I64Load (m : MemArg)
  | I32Load8S (m : MemArg) | I32Load8U (m : MemArg)
  | I32Load16S (m : MemArg) | I32Load16U (m : MemArg)
  | I64Load8S (m : MemArg) | I64Load8U (m : MemArg)
  | I64Load16S (m : MemArg) | I64Load16U (m : MemArg)
  | I64Load32S (m : MemArg) | I64Load32U (m : MemArg)
  | I32Store (m : MemArg) | I64Store (m : MemArg)
  | I32Store8 (m : MemArg) | I32Store16 (m : MemArg)
  | I64Store8 (m : MemArg) | I64Store16 (m : MemArg) | I64Store32 (m : MemArg)
  | MemorySize | MemoryGrow
  | I32Const (n : Int) | I64Const (n : Int)
  | I32Eqz | I32Eq | I32Ne | I32LtS | I32LtU | I32GtS | I32GtU
  | I32LeS | I32LeU | I32GeS | I32GeU
  | I64Eqz | I64Eq | I64Ne | I64LtS | I64LtU | I64GtS | I64GtU
  | I64LeS | I64LeU | I64GeS | I64GeU
  | I32Clz | I32Ctz | I32Popcnt | I32Add | I32Sub | I32Mul | I32DivS | I32DivU
  | I32RemS | I32RemU | I32And | I32Or | I32Xor | I32Shl | I32ShrS | I32ShrU
  | I32Rotl | I32Rotr
  | I64Clz | I64Ctz | I64Popcnt | I64Add | I64Sub | I64Mul | I64DivS | I64DivU
  | I64RemS | I64RemU | I64And | I64Or | I64Xor | I64Shl | I64ShrS | I64ShrU
  | I64Rotl | I64Rotr
  | I32WrapI64 | I64ExtendI32S | I64ExtendI32U
  deriving Repr

/-- An instruction sequence (`InstrSeq = Vec<Instruction>`). -/
abbrev InstrSeq := List Instruction

/-- An expression: an instruction sequence terminated by the `END` byte. -/
structure Expression where
  instrs : InstrSeq
  deriving Repr

/-- A name: a length-prefixed byte vector checked to be valid UTF-8.  The
Rust code converts to `String`; we keep the validated bytes. -/
structure Name where
  name : List Byte
  deriving Repr, DecidableEq

/-- Limits of tables and memories. -/
structure Limits where
  min : Nat
  max : Option Nat
  deriving Repr, DecidableEq

/-- A function type: parameters plus at most one result. -/
structure FunctionType where
  parameters : List ValueType
  result     : Option ValueType
  deriving Repr, DecidableEq

/-- A global type: value type plus mutability. -/
structure GlobalType where
  ty      : ValueType
  mutable : Bool
  deriving Repr, DecidableEq

structure TableType where
  limits : Limits
  deriving Repr, DecidableEq

structure MemoryType where
  limits : Limits
  deriving Repr, DecidableEq

inductive ImportDescription
  | Func (type_idx : TypeIndex)
  | Table (table_type : TableType)
  | Memory (memory_type : MemoryType)
  | Global (global_type : GlobalType)
  deriving Repr, DecidableEq

structure Import where
  mod_name    : Name
  item_name   : Name
  description : ImportDescription
  deriving Repr, DecidableEq

inductive ExportDescription
  | Func (index : FuncIndex)
  | Table
  | Memory
  | Global (index : GlobalIndex)
  deriving Repr, DecidableEq

structure Export where
  name        : Name
  description : ExportDescription
  deriving Repr, DecidableEq

structure Global where
  ty   : GlobalType
  init : Expression
  deriving Repr

structure Element where
  offset : Expression
  inits  : List FuncIndex
  deriving Repr

/-- A run-length block of local declarations. -/
structure Local where
  multiplicity : Nat
  ty           : ValueType
  deriving Repr, DecidableEq

/-- A code entry: local declarations plus the body expression. -/
structure Code where
  locals : List Local
  expr   : Expression
  deriving Repr

structure Data where
  offset : Expression
  init   : List Byte
  deriving Repr

structure TypeSection where
  types : List FunctionType
  deriving Repr

structure ImportSection where
  imports : List Import
  deriving Repr

structure FunctionSection where
  types : List TypeIndex
  deriving Repr

structure TableSection where
  table_type : Option TableType
  deriving Repr

structure MemorySection where
  memory_type : Option MemoryType
  deriving Repr

structure GlobalSection where
  globals : List Global
  deriving Repr

structure ExportSection where
  exports : List Export
  deriving Repr

/-- The start section carries no payload after parsing. -/
structure StartSection where
  deriving Repr

structure ElementSection where
  elements : List Element
  deriving Repr

structure CodeSection where
  impls : List Code
  deriving Repr

structure DataSection where
  sections : List Data
  deriving Repr

/-- A fully decoded module: every section present, defaulting to empty. -/
structure Module where
  ty      : TypeSection
  «import» : ImportSection
  func    : FunctionSection
  table   : TableSection
  memory  : MemorySection
  global  : GlobalSection
  «export» : ExportSection
  start   : StartSection
  element : ElementSection
  code    : CodeSection
  data    : DataSection
  deriving Repr

/-! ## Generic decoding helpers -/

/-- `MAX_PREALLOCATED_BYTES / std::cmp::max(1, std::mem::size_of::<A>())`:
the cap on the initial capacity of the vector decoder.  `sizeOfA` stands for
the compile-time element size, passed as a parameter here. -/
def max_initial_capacity (sizeOfA : Nat) : Nat :=
  MAX_PREALLOCATED_BYTES / max 1 sizeOfA

/-- The initial capacity `Vec::with_capacity` receives in the `Parseable`
impl for `Vec<A>`: `min(len as usize, max_initial_capacity)`.  The capacity
is an allocation hint only; the decoded elements are unaffected. -/
def vecInitialCapacity (sizeOfA len : Nat) : Nat :=
  min len (max_initial_capacity sizeOfA)

/-- The element loop of the `Vec<A>` decoder: decode exactly `len` elements,
aborting at the first element that fails (`out.push(cursor.next()?)`). -/
def parseVecElems {α : Type} (p : Cursor → ParseResult α) :
    Nat → Cursor → ParseResult (List α)
  | 0, c => .ok ([], c)
  | len + 1, c =>
    match p c with
    | .error e => .error e
    | .ok (x, c1) =>
      match parseVecElems p len c1 with
      | .error e => .error e
      | .ok (xs, c2) => .ok (x :: xs, c2)

/-- `Parseable` for `Vec<A>`: a `u32` length followed by that many
elements. -/
def parseVec {α : Type} (p : Cursor → ParseResult α) (c : Cursor) : ParseResult (List α) :=
  match parseU32 c with
  | .error e => .error e
  | .ok (len, c1) => parseVecElems p len c1

/-- `GetParseable` for `&'a [u8]`: parse a value from the full byte slice
and ensure all of it was consumed. -/
def parseAll {α : Type} (p : Cursor → ParseResult α) (bytes : List Byte) : Except String α :=
  match p ⟨bytes, 0⟩ with
  | .error e => .error e
  | .ok (v, c) =>
    if c.pos = bytes.length then .ok v else .error "Not all of the contents was consumed."

/-- `expect_byte`: read one byte and compare it with the given one. -/
def expect_byte (c : Cursor) (byte : Byte) : ParseResult Unit :=
  match readByte c with
  | .error e => .error e
  | .ok (b, c1) => if b = byte then .ok ((), c1) else .error "Unexpected byte"

/-! ## Typed parsers for the individual structures -/

/-- `Parseable` for `ValueType`: only the tags `0x7F` (I32) and `0x7E` (I64)
are accepted; floating point and vector types are a parse error. -/
def parseValueType (c : Cursor) : ParseResult ValueType :=
  match readByte c with
  | .error e => .error e
  | .ok (b, c1) =>
    if b = 0x7F then .ok (.I32, c1)
    else if b = 0x7E then .ok (.I64, c1)
    else .error "Unsupported value type"

def parseLimits (c : Cursor) : ParseResult Limits :=
  match readByte c with
  | .error e => .error e
  | .ok (b, c1) =>
    if b = 0x00 then
      match parseU32 c1 with
      | .error e => .error e
      | .ok (min, c2) => .ok (⟨min, none⟩, c2)
    else if b = 0x01 then
      match parseU32 c1 with
      | .error e => .error e
      | .ok (min, c2) =>
        match parseU32 c2 with
        | .error e => .error e
        | .ok (mx, c3) => .ok (⟨min, some mx⟩, c3)
    else .error "Incorrect limits tag"

/-- `Parseable` for `FunctionType`: `0x60`, parameters, results; more than
one result value is rejected at parse time. -/
def parseFunctionType (c : Cursor) : ParseResult FunctionType :=
  match expect_byte c 0x60 with
  | .error e => .error e
  | .ok (_, c1) =>
    match parseVec parseValueType c1 with
    | .error e => .error e
    | .ok (parameters, c2) =>
      match parseVec parseValueType c2 with
      | .error e => .error e
      | .ok (result_vec, c3) =>
        if result_vec.length ≤ 1 then .ok (⟨parameters, result_vec.head?⟩, c3)
        else .error "Only single return value is supported."

def parseGlobalType (c : Cursor) : ParseResult GlobalType :=
  match parseValueType c with
  | .error e => .error e
  | .ok (ty, c1) =>
    match readByte c1 with
    | .error e => .error e
    | .ok (b, c2) =>
      if b = 0x00 then .ok (⟨ty, false⟩, c2)
      else if b = 0x01 then .ok (⟨ty, true⟩, c2)
      else .error "Unsupported mutability flag"

def parseTableType (c : Cursor) : ParseResult TableType :=
  match expect_byte c 0x70 with
  | .error e => .error e
  | .ok (_, c1) =>
    match parseLimits c1 with
    | .error e => .error e
    | .ok (limits, c2) => .ok (⟨limits⟩, c2)

def parseMemoryType (c : Cursor) : ParseResult MemoryType :=
  match parseLimits c with
  | .error e => .error e
  | .ok (limits, c1) => .ok (⟨limits⟩, c1)

/-- Validity of a UTF-8 byte sequence (`std::str::from_utf8`), per RFC 3629:
surrogates and overlong encodings are excluded. -/
def isValidUtf8 : List Byte → Bool
  | [] => true
  | b1 :: rest =>
    if b1 < 0x80 then isValidUtf8 rest
    else if 0xC2 ≤ b1 && b1 ≤ 0xDF then
      match rest with
      | b2 :: rest2 => 0x80 ≤ b2 && b2 ≤ 0xBF && isValidUtf8 rest2
      | [] => false
    else if b1 = 0xE0 then
      match rest with
      | b2 :: b3 :: rest3 =>
        0xA0 ≤ b2 && b2 ≤ 0xBF && 0x80 ≤ b3 && b3 ≤ 0xBF && isValidUtf8 rest3
      | _ => false
    else if (0xE1 ≤ b1 && b1 ≤ 0xEC) || b1 = 0xEE || b1 = 0xEF then
      match rest with
      | b2 :: b3 :: rest3 =>
        0x80 ≤ b2 && b2 ≤ 0xBF && 0x80 ≤ b3 && b3 ≤ 0xBF && isValidUtf8 rest3
      | _ => false
    else if b1 = 0xED then
      match rest with
      | b2 :: b3 :: rest3 =>
        0x80 ≤ b2 && b2 ≤ 0x9F && 0x80 ≤ b3 && b3 ≤ 0xBF && isValidUtf8 rest3
      | _ => false
    else if b1 = 0xF0 then
      match rest with
      | b2 :: b3 :: b4 :: rest4 =>
        0x90 ≤ b2 && b2 ≤ 0xBF && 0x80 ≤ b3 && b3 ≤ 0xBF &&
          0x80 ≤ b4 && b4 ≤ 0xBF && isValidUtf8 rest4
      | _ => false
    else if 0xF1 ≤ b1 && b1 ≤ 0xF3 then
      match rest with
      | b2 :: b3 :: b4 :: rest4 =>
        0x80 ≤ b2 && b2 ≤ 0xBF && 0x80 ≤ b3 && b3 ≤ 0xBF &&
          0x80 ≤ b4 && b4 ≤ 0xBF && isValidUtf8 rest4
      | _ => false
    else if b1 = 0xF4 then
      match rest with
      | b2 :: b3 :: b4 :: rest4 =>
        0x80 ≤ b2 && b2 ≤ 0x8F && 0x80 ≤ b3 && b3 ≤ 0xBF &&
          0x80 ≤ b4 && b4 ≤ 0xBF && isValidUtf8 rest4
      | _ => false
    else false

/-- `Parseable` for `Name`: a byte vector checked to be valid UTF-8. -/
def parseName (c : Cursor) : ParseResult Name :=
  match parseByteSlice c with
  | .error e => .error e
  | .ok (name_bytes, c1) =>
    if isValidUtf8 name_bytes then .ok (⟨name_bytes⟩, c1) else .error "invalid UTF-8"

/-- The byte signalling the end of an instruction sequence. -/
def END : Byte := 0x0B

/-- `Parseable` for `BlockType`: empty, I32 or I64 only. -/
def parseBlockType (c : Cursor) : ParseResult BlockType :=
  match readByte c with
  | .error e => .error e
  | .ok (b, c1) =>
    if b = 0x40 then .ok (.EmptyType, c1)
    else if b = 0x7F then .ok (.ValueType .I32, c1)
    else if b = 0x7E then .ok (.ValueType .I64, c1)
    else .error "Unsupported block type"

def parseMemArg (c : Cursor) : ParseResult MemArg :=
  match parseU32 c with
  | .error e => .error e
  | .ok (offset, c1) =>
    match parseU32 c1 with
    | .error e => .error e
    | .ok (align, c2) => .ok (⟨offset, align⟩, c2)

/-! ## The recursive instruction decoder

`decode_instruction` / `decode_terminated_sequence` from `parse.rs`.  The
Rust recursion terminates because every recursive call is preceded by at
least one consumed byte; here an explicit fuel argument (decremented on
every recursive call) makes this a total function, with fuel exhaustion
reported as an error.  The accumulator loop inside the `If` arm (pushing
onto `then_branch` until the `END`/`0x05` terminator) is split out as
`decodeIfArms`, returning the then- and else-branches. -/

mutual

/-- Decode the byte `b` as an instruction, reading any subsequent operand
data; the match arms are in source order, and any opcode outside the
supported set falls through to the final unsupported-instruction error. -/
def decodeInstruction : Nat → Byte → Cursor → ParseResult Instruction
  | 0, _, _ => .error "out of fuel"
  | fuel + 1, b, c =>
    if b = 0x00 then .ok (.Unreachable, c)
    else if b = 0x01 then .ok (.Nop, c)
    else if b = 0x02 then
      match parseBlockType c with
      | .error e => .error e
      | .ok (bt, c1) =>
        match decodeSeq fuel c1 with
        | .error e => .error e
        | .ok (seq, c2) => .ok (.Block bt seq, c2)
    else if b = 0x03 then
      match parseBlockType c with
      | .error e => .error e
      | .ok (bt, c1) =>
        match decodeSeq fuel c1 with
        | .error e => .error e
        | .ok (seq, c2) => .ok (.Loop bt seq, c2)
    else if b = 0x04 then
      match parseBlockType c with
      | .error e => .error e
      | .ok (ty, c1) =>
        match decodeIfArms fuel c1 with
        | .error e => .error e
        | .ok ((then_branch, else_branch), c2) =>
          .ok (.If ty then_branch else_branch, c2)
    else if b = 0x0C then
      match parseU32 c with
      | .error e => .error e
      | .ok (l, c1) => .ok (.Br l, c1)
    else if b = 0x0D then
      match parseU32 c with
      | .error e => .error e
      | .ok (l, c1) => .ok (.BrIf l, c1)
    else if b = 0x0E then
      match parseVec parseU32 c with
      | .error e => .error e
      | .ok (labels, c1) =>
        match parseU32 c1 with
        | .error e => .error e
        | .ok (default, c2) => .ok (.BrTable labels default, c2)
    else if b = 0x0F then .ok (.Return, c)
    else if b = 0x10 then
      match parseU32 c with
      | .error e => .error e
      | .ok (idx, c1) => .ok (.Call idx, c1)
    else if b = 0x11 then
      match parseU32 c with
      | .error e => .error e
      | .ok (ty, c1) =>
        match expect_byte c1 0x00 with
        | .error e => .error e
        | .ok (_, c2) => .ok (.CallIndirect ty, c2)
    else if b = 0x1A then .ok (.Drop, c)
    else if b = 0x1B then .ok (.Select, c)
    else if b = 0x20 then
      match parseU32 c with
      | .error e => .error e
      | .ok (idx, c1) => .ok (.LocalGet idx, c1)
    else if b = 0x21 then
      match parseU32 c with
      | .error e => .error e
      | .ok (idx, c1) => .ok (.LocalSet idx, c1)
    else if b = 0x22 then
      match parseU32 c with
      | .error e => .error e
      | .ok (idx, c1) => .ok (.LocalTee idx, c1)
    else if b = 0x23 then
      match parseU32 c with
      | .error e => .error e
      | .ok (idx, c1) => .ok (.GlobalGet idx, c1)
    else if b = 0x24 then
      match parseU32 c with
      | .error e => .error e
      | .ok (idx, c1) => .ok (.GlobalSet idx, c1)
    else if b = 0x28 then
      match parseMemArg c with
      | .error e => .error e
      | .ok (m, c1) => .ok (.I32Load m, c1)
    else if b = 0x29 then
      match parseMemArg c with
      | .error e => .error e
      | .ok (m, c1) => .ok (.I64Load m, c1)
    else if b = 0x2C then
      match parseMemArg c with
      | .error e => .error e
      | .ok (m, c1) => .ok (.I32Load8S m, c1)
    else if b = 0x2D then
      match parseMemArg c with
      | .error e => .error e
      | .ok (m, c1) => .ok (.I32Load8U m, c1)
    else if b = 0x2E then
      match parseMemArg c with
      | .error e => .error e
      | .ok (m, c1) => .ok (.I32Load16S m, c1)
    else if b = 0x2F then
      match parseMemArg c with
      | .error e => .error e
      | .ok (m, c1) => .ok (.I32Load16U m, c1)
    else if b = 0x30 then
      match parseMemArg c with
      | .error e => .error e
      | .ok (m, c1) => .ok (.I64Load8S m, c1)
    else if b = 0x31 then
      match parseMemArg c with
      | .error e => .error e
      | .ok (m, c1) => .ok (.I64Load8U m, c1)
    else if b = 0x32 then
      match parseMemArg c with
      | .error e => .error e
      | .ok (m, c1) => .ok (.I64Load16S m, c1)
    else if b = 0x33 then
      match parseMemArg c with
      | .error e => .error e
      | .ok (m, c1) => .ok (.I64Load16U m, c1)
    else if b = 0x34 then
      match parseMemArg c with
      | .error e => .error e
      | .ok (m, c1) => .ok (.I64Load32S m, c1)
    else if b = 0x35 then
      match parseMemArg c with
      | .error e => .error e
      | .ok (m, c1) => .ok (.I64Load32U m, c1)
    else if b = 0x36 then
      match parseMemArg c with
      | .error e => .error e
      | .ok (m, c1) => .ok (.I32Store m, c1)
    else if b = 0x37 then
      match parseMemArg c with
      | .error e => .error e
      | .ok (m, c1) => .ok (.I64Store m, c1)
    else if b = 0x3A then
      match parseMemArg c with
      | .error e => .error e
      | .ok (m, c1) => .ok (.I32Store8 m, c1)
    else if b = 0x3B then
      match parseMemArg c with
      | .error e => .error e
      | .ok (m, c1) => .ok (.I32Store16 m, c1)
    else if b = 0x3C then
      match parseMemArg c with
      | .error e => .error e
      | .ok (m, c1) => .ok (.I64Store8 m, c1)
    else if b = 0x3D then
      match parseMemArg c with
      | .error e => .error e
      | .ok (m, c1) => .ok (.I64Store16 m, c1)
    else if b = 0x3E then
      match parseMemArg c with
      | .error e => .error e
      | .ok (m, c1) => .ok (.I64Store32 m, c1)
    else if b = 0x3F then
      match expect_byte c 0x00 with
      | .error e => .error e
      | .ok (_, c1) => .ok (.MemorySize, c1)
    else if b = 0x40 then
      match expect_byte c 0x00 with
      | .error e => .error e
      | .ok (_, c1) => .ok (.MemoryGrow, c1)
    else if b = 0x41 then
      match parseI32 c with
      | .error e => .error e
      | .ok (n, c1) => .ok (.I32Const n, c1)
    else if b = 0x42 then
      match parseI64 c with
      | .error e => .error e
      | .ok (n, c1) => .ok (.I64Const n, c1)
    else if b = 0x45 then .ok (.I32Eqz, c)
    else if b = 0x46 then .ok (.I32Eq, c)
    else if b = 0x47 then .ok (.I32Ne, c)
    else if b = 0x48 then .ok (.I32LtS, c)
    else if b = 0x49 then .ok (.I32LtU, c)
    else if b = 0x4A then .ok (.I32GtS, c)
    else if b = 0x4B then .ok (.I32GtU, c)
    else if b = 0x4C then .ok (.I32LeS, c)
    else if b = 0x4D then .ok (.I32LeU, c)
    else if b = 0x4E then .ok (.I32GeS, c)
    else if b = 0x4F then .ok (.I32GeU, c)
    else if b = 0x50 then .ok (.I64Eqz, c)
    else if b = 0x51 then .ok (.I64Eq, c)
    else if b = 0x52 then .ok (.I64Ne, c)
    else if b = 0x53 then .ok (.I64LtS, c)
    else if b = 0x54 then .ok (.I64LtU, c)
    else if b = 0x55 then .ok (.I64GtS, c)
    else if b = 0x56 then .ok (.I64GtU, c)
    else if b = 0x57 then .ok (.I64LeS, c)
    else if b = 0x58 then .ok (.I64LeU, c)
    else if b = 0x59 then .ok (.I64GeS, c)
    else if b = 0x5A then .ok (.I64GeU, c)
    else if b = 0x67 then .ok (.I32Clz, c)
    else if b = 0x68 then .ok (.I32Ctz, c)
    else if b = 0x69 then .ok (.I32Popcnt, c)
    else if b = 0x6A then .ok (.I32Add, c)
    else if b = 0x6B then .ok (.I32Sub, c)
    else if b = 0x6C then .ok (.I32Mul, c)
    else if b = 0x6D then .ok (.I32DivS, c)
    else if b = 0x6E then .ok (.I32DivU, c)
    else if b = 0x6F then .ok (.I32RemS, c)
    else if b = 0x70 then .ok (.I32RemU, c)
    else if b = 0x71 then .ok (.I32And, c)
    else if b = 0x72 then .ok (.I32Or, c)
    else if b = 0x73 then .ok (.I32Xor, c)
    else if b = 0x74 then .ok (.I32Shl, c)
    else if b = 0x75 then .ok (.I32ShrS, c)
    else if b = 0x76 then .ok (.I32ShrU, c)
    else if b = 0x77 then .ok (.I32Rotl, c)
    else if b = 0x78 then .ok (.I32Rotr, c)
    else if b = 0x79 then .ok (.I64Clz, c)
    else if b = 0x7A then .ok (.I64Ctz, c)
    else if b = 0x7B then .ok (.I64Popcnt, c)
    else if b = 0x7C then .ok (.I64Add, c)
    else if b = 0x7D then .ok (.I64Sub, c)
    else if b = 0x7E then .ok (.I64Mul, c)
    else if b = 0x7F then .ok (.I64DivS, c)
    else if b = 0x80 then .ok (.I64DivU, c)
    else if b = 0x81 then .ok (.I64RemS, c)
    else if b = 0x82 then .ok (.I64RemU, c)
    else if b = 0x83 then .ok (.I64And, c)
    else if b = 0x84 then .ok (.I64Or, c)
    else if b = 0x85 then .ok (.I64Xor, c)
    else if b = 0x86 then .ok (.I64Shl, c)
    else if b = 0x87 then .ok (.I64ShrS, c)
    else if b = 0x88 then .ok (.I64ShrU, c)
    else if b = 0x89 then .ok (.I64Rotl, c)
    else if b = 0x8A then .ok (.I64Rotr, c)
    else if b = 0xA7 then .ok (.I32WrapI64, c)
    else if b = 0xAC then .ok (.I64ExtendI32S, c)
    else if b = 0xAD then .ok (.I64ExtendI32U, c)
    else .error "Unsupported instruction"

/-- `decode_terminated_sequence`: decode instructions until the `END`
byte. -/
def decodeSeq : Nat → Cursor → ParseResult InstrSeq
  | 0, _ => .error "out of fuel"
  | fuel + 1, c =>
    match readByte c with
    | .error e => .error e
    | .ok (b, c1) =>
      if b = END then .ok ([], c1)
      else
        match decodeInstruction fuel b c1 with
        | .error e => .error e
        | .ok (i, c2) =>
          match decodeSeq fuel c2 with
          | .error e => .error e
          | .ok (is, c3) => .ok (i :: is, c3)

/-- The `then_branch` accumulator loop of the `If` arm: read instructions
until the first terminator at this nesting level; `END` yields an empty
else-branch, `0x05` decodes the else-branch as a terminated sequence. -/
def decodeIfArms : Nat → Cursor → ParseResult (InstrSeq × InstrSeq)
  | 0, _ => .error "out of fuel"
  | fuel + 1, c =>
    match readByte c with
    | .error e => .error e
    | .ok (b, c1) =>
      if b = END then .ok (([], []), c1)
      else if b = 0x05 then
        match decodeSeq fuel c1 with
        | .error e => .error e
        | .ok (else_branch, c2) => .ok (([], else_branch), c2)
      else
        match decodeInstruction fuel b c1 with
        | .error e => .error e
        | .ok (i, c2) =>
          match decodeIfArms fuel c2 with
          | .error e => .error e
          | .ok ((then_branch, else_branch), c3) =>
            .ok ((i :: then_branch, else_branch), c3)

end

/-- `Parseable` for `Expression`: a terminated instruction sequence.  The
fuel `c.data.length + 1` always suffices: every recursive call of the
decoder is preceded by at least one consumed byte. -/
def parseExpression (c : Cursor) : ParseResult Expression :=
  match decodeSeq (c.data.length + 1) c with
  | .error e => .error e
  | .ok (instrs, c1) => .ok (⟨instrs⟩, c1)

/-- `Parseable` for `Local`: multiplicity then value type. -/
def parseLocal (c : Cursor) : ParseResult Local :=
  match parseU32 c with
  | .error e => .error e
  | .ok (multiplicity, c1) =>
    match parseValueType c1 with
    | .error e => .error e
    | .ok (ty, c2) => .ok (⟨multiplicity, ty⟩, c2)

/-- `Parseable` for `Code`: the declared size, then locals and body; the
declared size must match the number of bytes actually consumed. -/
def parseCode (c : Cursor) : ParseResult Code :=
  match parseU32 c with
  | .error e => .error e
  | .ok (size, c1) =>
    match parseVec parseLocal c1 with
    | .error e => .error e
    | .ok (locals, c2) =>
      match parseExpression c2 with
      | .error e => .error e
      | .ok (expr, c3) =>
        if c3.pos - c1.pos = size then .ok (⟨locals, expr⟩, c3)
        else .error "Declared size must match actual size."

/-! ## Section parsers -/

def parseTypeSection (c : Cursor) : ParseResult TypeSection :=
  match parseVec parseFunctionType c with
  | .error e => .error e
  | .ok (types, c1) => .ok (⟨types⟩, c1)

def parseImportDescription (c : Cursor) : ParseResult ImportDescription :=
  match readByte c with
  | .error e => .error e
  | .ok (b, c1) =>
    if b = 0x00 then
      match parseU32 c1 with
      | .error e => .error e
      | .ok (type_idx, c2) => .ok (.Func type_idx, c2)
    else if b = 0x01 then
      match parseTableType c1 with
      | .error e => .error e
      | .ok (table_type, c2) => .ok (.Table table_type, c2)
    else if b = 0x02 then
      match parseMemoryType c1 with
      | .error e => .error e
      | .ok (memory_type, c2) => .ok (.Memory memory_type, c2)
    else if b = 0x03 then
      match parseGlobalType c1 with
      | .error e => .error e
      | .ok (global_type, c2) => .ok (.Global global_type, c2)
    else .error "Unexpected import description tag"

def parseImport (c : Cursor) : ParseResult Import :=
  match parseName c with
  | .error e => .error e
  | .ok (mod_name, c1) =>
    match parseName c1 with
    | .error e => .error e
    | .ok (item_name, c2) =>
      match parseImportDescription c2 with
      | .error e => .error e
      | .ok (description, c3) => .ok (⟨mod_name, item_name, description⟩, c3)

def parseImportSection (c : Cursor) : ParseResult ImportSection :=
  match parseVec parseImport c with
  | .error e => .error e
  | .ok (imports, c1) => .ok (⟨imports⟩, c1)

def parseFunctionSection (c : Cursor) : ParseResult FunctionSection :=
  match parseVec parseU32 c with
  | .error e => .error e
  | .ok (types, c1) => .ok (⟨types⟩, c1)

/-- `Parseable` for `TableSection`: at most one table is permitted. -/
def parseTableSection (c : Cursor) : ParseResult TableSection :=
  match parseVec parseTableType c with
  | .error e => .error e
  | .ok (table_type_vec, c1) =>
    if table_type_vec.length ≤ 1 then .ok (⟨table_type_vec.head?⟩, c1)
    else .error "Only table with index 0 is supported."

/-- `Parseable` for `MemorySection`: at most one memory is permitted. -/
def parseMemorySection (c : Cursor) : ParseResult MemorySection :=
  match parseVec parseMemoryType c with
  | .error e => .error e
  | .ok (memory_types_vec, c1) =>
    if memory_types_vec.length ≤ 1 then .ok (⟨memory_types_vec.head?⟩, c1)
    else .error "Only memory with index 1 is supported."

def parseExportDescription (c : Cursor) : ParseResult ExportDescription :=
  match readByte c with
  | .error e => .error e
  | .ok (b, c1) =>
    if b = 0x00 then
      match parseU32 c1 with
      | .error e => .error e
      | .ok (index, c2) => .ok (.Func index, c2)
    else if b = 0x01 then
      match parseU32 c1 with
      | .error e => .error e
      | .ok (index, c2) =>
        if index = 0 then .ok (.Table, c2)
        else .error "Only table with index 0 is supported."
    else if b = 0x02 then
      match parseU32 c1 with
      | .error e => .error e
      | .ok (index, c2) =>
        if index = 0 then .ok (.Memory, c2)
        else .error "Only memory with index 0 is supported."
    else if b = 0x03 then
      match parseU32 c1 with
      | .error e => .error e
      | .ok (index, c2) => .ok (.Global index, c2)
    else .error "Unsupported export tag"

def parseExport (c : Cursor) : ParseResult Export :=
  match parseName c with
  | .error e => .error e
  | .ok (name, c1) =>
    match parseExportDescription c1 with
    | .error e => .error e
    | .ok (description, c2) => .ok (⟨name, description⟩, c2)

def parseExportSection (c : Cursor) : ParseResult ExportSection :=
  match parseVec parseExport c with
  | .error e => .error e
  | .ok (exports, c1) => .ok (⟨exports⟩, c1)

/-- `Parseable` for `StartSection`, verbatim from `parse.rs`: parse a vector
of function indices and `ensure!(!idxs.is_empty(), "Start functions are not
supported.")` — i.e. the parse FAILS when the vector is empty and succeeds
otherwise. -/
def parseStartSection (c : Cursor) : ParseResult StartSection :=
  match parseVec parseU32 c with
  | .error e => .error e
  | .ok (idxs, c1) =>
    if ¬ idxs = [] then .ok (⟨⟩, c1) else .error "Start functions are not supported."

def parseElement (c : Cursor) : ParseResult Element :=
  match parseU32 c with
  | .error e => .error e
  | .ok (table_index, c1) =>
    if table_index = 0 then
      match parseExpression c1 with
      | .error e => .error e
      | .ok (offset, c2) =>
        match parseVec parseU32 c2 with
        | .error e => .error e
        | .ok (inits, c3) => .ok (⟨offset, inits⟩, c3)
    else .error "Only table index 0 is supported."

def parseElementSection (c : Cursor) : ParseResult ElementSection :=
  match parseVec parseElement c with
  | .error e => .error e
  | .ok (elements, c1) => .ok (⟨elements⟩, c1)

def parseGlobal (c : Cursor) : ParseResult Global :=
  match parseGlobalType c with
  | .error e => .error e
  | .ok (ty, c1) =>
    match parseExpression c1 with
    | .error e => .error e
    | .ok (init, c2) => .ok (⟨ty, init⟩, c2)

def parseGlobalSection (c : Cursor) : ParseResult GlobalSection :=
  match parseVec parseGlobal c with
  | .error e => .error e
  | .ok (globals, c1) => .ok (⟨globals⟩, c1)

def parseCodeSection (c : Cursor) : ParseResult CodeSection :=
  match parseVec parseCode c with
  | .error e => .error e
  | .ok (impls, c1) => .ok (⟨impls⟩, c1)

def parseData (c : Cursor) : ParseResult Data :=
  match parseU32 c with
  | .error e => .error e
  | .ok (index, c1) =>
    if index = 0 then
      match parseExpression c1 with
      | .error e => .error e
      | .ok (offset, c2) =>
        match parseVec readByte c2 with
        | .error e => .error e
        | .ok (init, c3) => .ok (⟨offset, init⟩, c3)
    else .error "Only memory index 0 is supported."

def parseDataSection (c : Cursor) : ParseResult DataSection :=
  match parseVec parseData c with
  | .error e => .error e
  | .ok (sections, c1) => .ok (⟨sections⟩, c1)

/-- `parse_sec_with_default`: a missing section parses to the default value,
a present one is parsed from its bytes with full consumption required. -/
def parse_sec_with_default {α : Type} (dflt : α) (p : Cursor → ParseResult α)
    (sec : Option UnparsedSection) : Except String α :=
  match sec with
  | none => .ok dflt
  | some sec => parseAll p sec.bytes

/-- `parse_module`: parse all the non-custom sections of a skeleton into a
`Module`; absent sections default to empty. -/
def parse_module (skeleton : Skeleton) : Except String Module := do
  let ty ← parse_sec_with_default ⟨[]⟩ parseTypeSection skeleton.ty
  let imp ← parse_sec_with_default ⟨[]⟩ parseImportSection skeleton.«import»
  let func ← parse_sec_with_default ⟨[]⟩ parseFunctionSection skeleton.func
  let table ← parse_sec_with_default ⟨none⟩ parseTableSection skeleton.table
  let memory ← parse_sec_with_default ⟨none⟩ parseMemorySection skeleton.memory
  let global ← parse_sec_with_default ⟨[]⟩ parseGlobalSection skeleton.global
  let exp ← parse_sec_with_default ⟨[]⟩ parseExportSection skeleton.«export»
  let start ← parse_sec_with_default ⟨⟩ parseStartSection skeleton.start
  let element ← parse_sec_with_default ⟨[]⟩ parseElementSection skeleton.element
  let code ← parse_sec_with_default ⟨[]⟩ parseCodeSection skeleton.code
  let data ← parse_sec_with_default ⟨[]⟩ parseDataSection skeleton.data
  return ⟨ty, imp, func, table, memory, global, exp, start, element, code, data⟩

/-! ## Specification-side definitions

These do not come from the source; they state properties of the decoder in
the spec's vocabulary and are compared with the source-derived definitions
above. -/

/-- The numeric kinds of the non-custom sections of a section list, in
order (used to state the section-ordering property; custom sections are
skipped). -/
def nonCustomKinds (secs : List UnparsedSection) : List Nat :=
  ((secs.map UnparsedSection.section_id).filter
    (fun k => k != SectionId.Custom)).map SectionId.toNat

/-- Spec-side view of If decoding, step 1: "the then-branch is the sequence
of instructions up to the first terminator at that nesting level".  Decodes
instructions until the first `END` (0x0B) or else marker (0x05) at this
level and returns the sequence together with the terminator byte that ended
it (and the fuel left over, so that the continuation can be stated
exactly). -/
def decodeThenUntilTerm : Nat → Cursor → Except String ((InstrSeq × Byte) × Nat × Cursor)
  | 0, _ => .error "out of fuel"
  | fuel + 1, c =>
    match readByte c with
    | .error e => .error e
    | .ok (b, c1) =>
      if b = END then .ok (([], b), fuel, c1)
      else if b = 0x05 then .ok (([], b), fuel, c1)
      else
        match decodeInstruction fuel b c1 with
        | .error e => .error e
        | .ok (i, c2) =>
          match decodeThenUntilTerm fuel c2 with
          | .error e => .error e
          | .ok ((is, t), f, c3) => .ok ((i :: is, t), f, c3)

/-- Spec-side view of If decoding, step 2: decode the block type and the
then-branch up to the first terminator; "if that terminator is the else
marker (0x05) the else-branch is the following sequence decoded up to the
end marker (0x0B), and if it is the end marker the else-branch is the empty
sequence". -/
def specIfDecode : Nat → Cursor → ParseResult Instruction
  | 0, _ => .error "out of fuel"
  | fuel + 1, c =>
    match parseBlockType c with
    | .error e => .error e
    | .ok (ty, c1) =>
      match decodeThenUntilTerm fuel c1 with
      | .error e => .error e
      | .ok ((then_branch, term), f, c2) =>
        if term = END then .ok (.If ty then_branch [], c2)
        else
          match decodeSeq f c2 with
          | .error e => .error e
          | .ok (else_branch, c3) => .ok (.If ty then_branch else_branch, c3)

/-- The set of opcode bytes `decode_instruction` supports: exactly the
literals of its match arms, in source order. -/
def supportedOpcodes : List Byte :=
  [0x00, 0x01, 0x02, 0x03, 0x04, 0x0C, 0x0D, 0x0E, 0x0F, 0x10, 0x11, 0x1A, 0x1B,
   0x20, 0x21, 0x22, 0x23, 0x24,
   0x28, 0x29, 0x2C, 0x2D, 0x2E, 0x2F, 0x30, 0x31, 0x32, 0x33, 0x34, 0x35,
   0x36, 0x37, 0x3A, 0x3B, 0x3C, 0x3D, 0x3E, 0x3F, 0x40, 0x41, 0x42,
   0x45, 0x46, 0x47, 0x48, 0x49, 0x4A, 0x4B, 0x4C, 0x4D, 0x4E, 0x4F,
   0x50, 0x51, 0x52, 0x53, 0x54, 0x55, 0x56, 0x57, 0x58, 0x59, 0x5A,
   0x67, 0x68, 0x69, 0x6A, 0x6B, 0x6C, 0x6D, 0x6E, 0x6F, 0x70, 0x71, 0x72,
   0x73, 0x74, 0x75, 0x76, 0x77, 0x78,
   0x79, 0x7A, 0x7B, 0x7C, 0x7D, 0x7E, 0x7F, 0x80, 0x81, 0x82, 0x83, 0x84,
   0x85, 0x86, 0x87, 0x88, 0x89, 0x8A,
   0xA7, 0xAC, 0xAD]

/-- Every floating-point or SIMD opcode of wasm-core-1 (loads/stores,
constants, comparisons, arithmetic, conversions/reinterpretations, and the
SIMD prefix byte). -/
def floatingPointOpcodes : List Byte :=
  [0x2A, 0x2B, 0x38, 0x39, 0x43, 0x44,
   0x5B, 0x5C, 0x5D, 0x5E, 0x5F, 0x60, 0x61, 0x62, 0x63, 0x64, 0x65, 0x66,
   0x8B, 0x8C, 0x8D, 0x8E, 0x8F, 0x90, 0x91, 0x92, 0x93, 0x94, 0x95, 0x96,
   0x97, 0x98, 0x99, 0x9A, 0x9B, 0x9C, 0x9D, 0x9E, 0x9F, 0xA0, 0xA1, 0xA2,
   0xA3, 0xA4, 0xA5, 0xA6,
   0xA8, 0xA9, 0xAA, 0xAB, 0xAE, 0xAF, 0xB0, 0xB1, 0xB2, 0xB3, 0xB4, 0xB5,
   0xB6, 0xB7, 0xB8, 0xB9, 0xBA, 0xBB, 0xBC, 0xBD, 0xBE, 0xBF, 0xFD]

/-! ## Cursor invariant lemmas -/

theorem slice_append {l : List Byte} {a m b : Nat} (ham : a ≤ m) (hmb : m ≤ b) :
    slice l a m ++ slice l m b = slice l a b := by
  unfold slice
  have hb : b - a = (m - a) + (b - m) := by omega
  rw [hb, List.take_add]
  congr 2
  rw [List.drop_drop]
  congr 1
  omega

theorem slice_one {l : List Byte} {a : Nat} {x : Byte} (h : l[a]? = some x) :
    slice l a (a + 1) = [x] := by
  obtain ⟨hlt, hx⟩ := List.getElem?_eq_some.mp h
  unfold slice
  rw [List.drop_eq_getElem_cons hlt]
  simp [hx]

theorem slice_refl {l : List Byte} {a : Nat} : slice l a a = [] := by
  simp [slice]

theorem readByte_ok {c : Cursor} {b : Byte} {c' : Cursor}
    (h : readByte c = .ok (b, c')) :
    c'.data = c.data ∧ c'.pos = c.pos + 1 ∧ c.pos < c.data.length ∧
      c.data[c.pos]? = some b := by
  unfold readByte at h
  cases hg : c.data[c.pos]? with
  | none => rw [hg] at h; cases h
  | some b0 =>
    rw [hg] at h
    simp only [Except.ok.injEq, Prod.mk.injEq] at h
    obtain ⟨hb, hc⟩ := h
    subst hb; subst hc
    obtain ⟨hlt, -⟩ := List.getElem?_eq_some.mp hg
    exact ⟨rfl, rfl, hlt, rfl⟩

theorem readBytes_ok {n : Nat} : ∀ {c : Cursor} {bs : List Byte} {c' : Cursor},
    readBytes n c = .ok (bs, c') →
    c'.data = c.data ∧ c'.pos = c.pos + n ∧ (0 < n → c.pos + n ≤ c.data.length) ∧
      bs = slice c.data c.pos (c.pos + n) := by
  induction n with
  | zero =>
    intro c bs c' h
    unfold readBytes at h
    simp only [Except.ok.injEq, Prod.mk.injEq] at h
    obtain ⟨hbs, hc⟩ := h
    subst hbs; subst hc
    exact ⟨rfl, rfl, by omega, by simp [slice_refl]⟩
  | succ n ih =>
    intro c bs c' h
    unfold readBytes at h
    split at h
    · cases h
    · rename_i b c1 hr
      split at h
      · cases h
      · rename_i bs1 c2 hrest
        simp only [Except.ok.injEq, Prod.mk.injEq] at h
        obtain ⟨hbs, hc⟩ := h
        subst hbs; subst hc
        obtain ⟨hc1d, hc1p, hlt, hg⟩ := readByte_ok hr
        obtain ⟨hc2d, hc2p, hle, hbs1⟩ := ih hrest
        rw [hc1d] at hc2d hbs1 hle
        rw [hc1p] at hc2p hbs1 hle
        refine ⟨hc2d, by omega, ?_, ?_⟩
        · intro _
          by_cases hn : 0 < n
          · have := hle hn; omega
          · omega
        · have heq : c.pos + (n + 1) = (c.pos + 1) + n := by omega
          rw [heq, ← slice_append (l := c.data) (a := c.pos) (m := c.pos + 1)
            (by omega) (by omega), slice_one hg, hbs1]
          rfl

theorem lebUnsigned_ok {limit : Nat} : ∀ {shift acc : Nat} {c : Cursor} {v : Nat} {c' : Cursor},
    lebUnsigned limit shift acc c = .ok (v, c') →
    c'.data = c.data ∧ c.pos < c'.pos ∧ c'.pos ≤ c.pos + limit ∧
      c'.pos ≤ c.data.length := by
  induction limit with
  | zero =>
    intro shift acc c v c' h
    exact absurd h (by simp [lebUnsigned])
  | succ n ih =>
    intro shift acc c v c' h
    unfold lebUnsigned at h
    split at h
    · cases h
    · rename_i b c1 hr
      obtain ⟨hc1d, hc1p, hlt, hg⟩ := readByte_ok hr
      split at h
      · cases h
      · split at h
        · simp only [Except.ok.injEq, Prod.mk.injEq] at h
          obtain ⟨hv, hc⟩ := h
          subst hc
          rw [hc1d, hc1p]
          refine ⟨rfl, by omega, by omega, by omega⟩
        · obtain ⟨hd, hlt2, hle2, hlen2⟩ := ih h
          rw [hc1d] at hd hlen2
          rw [hc1p] at hlt2 hle2
          exact ⟨hd, by omega, by omega, hlen2⟩

theorem lebSigned_ok {limit : Nat} : ∀ {shift acc : Nat} {c : Cursor} {v : Int} {c' : Cursor},
    lebSigned limit shift acc c = .ok (v, c') →
    c'.data = c.data ∧ c.pos < c'.pos ∧ c'.pos ≤ c.pos + limit ∧
      c'.pos ≤ c.data.length := by
  induction limit with
  | zero =>
    intro shift acc c v c' h
    exact absurd h (by simp [lebSigned])
  | succ n ih =>
    intro shift acc c v c' h
    unfold lebSigned at h
    split at h
    · cases h
    · rename_i b c1 hr
      obtain ⟨hc1d, hc1p, hlt, hg⟩ := readByte_ok hr
      split at h
      · cases h
      · split at h
        · split at h <;>
          · simp only [Except.ok.injEq, Prod.mk.injEq] at h
            obtain ⟨hv, hc⟩ := h
            subst hc
            rw [hc1d, hc1p]
            refine ⟨rfl, by omega, by omega, by omega⟩
        · obtain ⟨hd, hlt2, hle2, hlen2⟩ := ih h
          rw [hc1d] at hd hlen2
          rw [hc1p] at hlt2 hle2
          exact ⟨hd, by omega, by omega, hlen2⟩

theorem parseU32_ok {c : Cursor} {v : Nat} {c' : Cursor} (h : parseU32 c = .ok (v, c')) :
    c'.data = c.data ∧ c.pos < c'.pos ∧ c'.pos ≤ c.pos + 5 ∧ c'.pos ≤ c.data.length := by
  unfold parseU32 at h
  split at h
  · cases h
  · rename_i res c1 hr
    split at h
    · simp only [Except.ok.injEq, Prod.mk.injEq] at h
      obtain ⟨hv, hc⟩ := h
      subst hc
      exact lebUnsigned_ok hr
    · cases h

theorem parseU64_ok {c : Cursor} {v : Nat} {c' : Cursor} (h : parseU64 c = .ok (v, c')) :
    c'.data = c.data ∧ c.pos < c'.pos ∧ c'.pos ≤ c.pos + 10 ∧ c'.pos ≤ c.data.length := by
  unfold parseU64 at h
  split at h
  · cases h
  · rename_i res c1 hr
    simp only [Except.ok.injEq, Prod.mk.injEq] at h
    obtain ⟨hv, hc⟩ := h
    subst hc
    exact lebUnsigned_ok hr

theorem parseI32_ok {c : Cursor} {v : Int} {c' : Cursor} (h : parseI32 c = .ok (v, c')) :
    c'.data = c.data ∧ c.pos < c'.pos ∧ c'.pos ≤ c.pos + 5 ∧ c'.pos ≤ c.data.length := by
  unfold parseI32 at h
  split at h
  · cases h
  · rename_i res c1 hr
    split at h
    · simp only [Except.ok.injEq, Prod.mk.injEq] at h
      obtain ⟨hv, hc⟩ := h
      subst hc
      exact lebSigned_ok hr
    · cases h

theorem parseI64_ok {c : Cursor} {v : Int} {c' : Cursor} (h : parseI64 c = .ok (v, c')) :
    c'.data = c.data ∧ c.pos < c'.pos ∧ c'.pos ≤ c.pos + 10 ∧ c'.pos ≤ c.data.length := by
  unfold parseI64 at h
  split at h
  · cases h
  · rename_i res c1 hr
    simp only [Except.ok.injEq, Prod.mk.injEq] at h
    obtain ⟨hv, hc⟩ := h
    subst hc
    exact lebSigned_ok hr

theorem parseByteSlice_ok {c : Cursor} {bs : List Byte} {c' : Cursor}
    (h : parseByteSlice c = .ok (bs, c')) :
    ∃ len c1, parseU32 c = .ok (len, c1) ∧ c1.pos + len ≤ c1.data.length ∧
      bs = slice c1.data c1.pos (c1.pos + len) ∧ bs.length = len ∧
      c'.data = c1.data ∧ c'.pos = c1.pos + len := by
  unfold parseByteSlice at h
  split at h
  · cases h
  · rename_i len c1 hr
    split at h
    · rename_i hle
      simp only [Except.ok.injEq, Prod.mk.injEq] at h
      obtain ⟨hbs, hc⟩ := h
      subst hbs; subst hc
      refine ⟨len, c1, hr, hle, by simp [slice], ?_, rfl, rfl⟩
      rw [List.length_take, List.length_drop]
      omega
    · cases h

theorem parseSectionId_ok {c : Cursor} {sid : SectionId} {c' : Cursor}
    (h : parseSectionId c = .ok (sid, c')) :
    c'.data = c.data ∧ c'.pos = c.pos + 1 ∧ c.pos < c.data.length ∧
      c.data[c.pos]? = some sid.toNat := by
  unfold parseSectionId at h
  split at h
  · cases h
  · rename_i b c1 hr
    obtain ⟨hc1d, hc1p, hlt, hg⟩ := readByte_ok hr
    split at h <;> cases h <;> exact ⟨hc1d, hc1p, hlt, by rw [hg]; rfl⟩

/-- Full characterization of parsing one unparsed section: the consumed
bytes are the id byte, the length field, and the content bytes. -/
theorem parseUnparsedSection_ok {c : Cursor} {sec : UnparsedSection} {c' : Cursor}
    (h : parseUnparsedSection c = .ok (sec, c')) :
    ∃ c1 len c2,
      parseSectionId c = .ok (sec.section_id, c1) ∧
      parseU32 c1 = .ok (len, c2) ∧
      c1.data = c.data ∧ c1.pos = c.pos + 1 ∧ c.pos < c.data.length ∧
      c.data[c.pos]? = some sec.section_id.toNat ∧
      c2.data = c.data ∧ c1.pos < c2.pos ∧ c2.pos ≤ c.data.length ∧
      c2.pos + len ≤ c.data.length ∧
      sec.bytes = slice c.data c2.pos (c2.pos + len) ∧ sec.bytes.length = len ∧
      c'.data = c.data ∧ c'.pos = c2.pos + len := by
  unfold parseUnparsedSection at h
  split at h
  · cases h
  · rename_i sid c1 hsid
    split at h
    · cases h
    · rename_i bytes c2 hbytes
      simp only [Except.ok.injEq, Prod.mk.injEq] at h
      obtain ⟨hsec, hc⟩ := h
      subst hsec; subst hc
      obtain ⟨hc1d, hc1p, hlt, hg⟩ := parseSectionId_ok hsid
      obtain ⟨len, cm, hu32, hle, hbs, hbslen, hcd, hcp⟩ := parseByteSlice_ok hbytes
      obtain ⟨hcmd, hcmlt, _, hcmlen⟩ := parseU32_ok hu32
      rw [hc1d] at hcmd
      refine ⟨c1, len, cm, hsid, hu32, hc1d, hc1p, hlt, hg, hcmd, hcmlt, ?_, ?_, ?_, ?_, ?_, ?_⟩
      · rw [← hc1d]; exact hcmlen
      · rw [hcmd] at hle; exact hle
      · rw [hcmd] at hbs; exact hbs
      · exact hbslen
      · rw [hcd, hcmd]
      · exact hcp

/-- The bytes occupied by a length field are `slice`s of the input; restate
the canonicality check in terms of `slice` (definitionally equal form). -/
theorem canonicalSectionsLoop_eq (fuel : Nat) (c : Cursor) :
    canonicalSectionsLoop (fuel + 1) c =
      if c.pos < c.data.length then
        match parseSectionId c with
        | .error _ => false
        | .ok (_, c1) =>
          match parseU32 c1 with
          | .error _ => false
          | .ok (len, c2) =>
            (slice c.data c1.pos c2.pos == lebEncode len) &&
              canonicalSectionsLoop fuel ⟨c.data, c2.pos + len⟩
      else true := rfl

/-- Round-trip invariant of the skeleton section loop: on success with all
length fields canonically encoded, serializing the newly parsed sections
reproduces exactly the consumed bytes. -/
theorem sectionsLoop_roundtrip {fuel : Nat} :
    ∀ {last : SectionId} {acc : List UnparsedSection} {c : Cursor}
      {secs : List UnparsedSection} {c' : Cursor},
      parseSectionsLoop fuel last acc c = .ok (secs, c') →
      canonicalSectionsLoop fuel c = true →
      c.pos ≤ c.data.length →
      ∃ rest, secs = acc ++ rest ∧ c'.data = c.data ∧ c.pos ≤ c'.pos ∧
        c'.pos ≤ c.data.length ∧
        serializeSections rest = slice c.data c.pos c'.pos := by
  induction fuel with
  | zero =>
    intro last acc c secs c' h _ _
    exact absurd h (by simp [parseSectionsLoop])
  | succ n ih =>
    intro last acc c secs c' h hcan hpos
    rw [canonicalSectionsLoop_eq] at hcan
    unfold parseSectionsLoop at h
    split at h
    · rename_i hrem
      rw [if_pos hrem] at hcan
      split at h
      · cases h
      · rename_i sec c1 hp
        obtain ⟨cid, len, c2, hsid, hu32, hcidd, hcidp, hposlt, hbyte, hc2d, hc2lt,
          hc2le, hlenle, hbytes, hbyteslen, hc1d, hc1p⟩ := parseUnparsedSection_ok hp
        split at hcan
        · cases hcan
        · rename_i sid0 cid0 hsid0
          rw [hsid] at hsid0
          injection hsid0 with hsid0'
          injection hsid0' with hsid0a hsid0b
          subst hsid0b
          split at hcan
          · cases hcan
          · rename_i len0 c20 hu320
            rw [hu32] at hu320
            injection hu320 with hu320'
            injection hu320' with hu320a hu320b
            subst hu320a; subst hu320b
            rw [Bool.and_eq_true, beq_iff_eq] at hcan
            obtain ⟨hcanon, hcannext⟩ := hcan
            split at h
            · rename_i hord
              have hc1 : c1 = ⟨c.data, c2.pos + len⟩ := by
                obtain ⟨d, p⟩ := c1
                simp only [Cursor.mk.injEq]
                exact ⟨hc1d, hc1p⟩
              rw [hc1] at h
              obtain ⟨rest', hsecs, hdata, hge, hlen, hser⟩ := ih h hcannext hlenle
              simp only at hdata hge hlen hser
              refine ⟨sec :: rest', by simpa using hsecs, hdata, by omega, hlen, ?_⟩
              have h1 : slice c.data c.pos c'.pos =
                  slice c.data c.pos (c.pos + 1) ++ slice c.data (c.pos + 1) c'.pos :=
                (slice_append (by omega) (by omega)).symm
              have h2 : slice c.data (c.pos + 1) c'.pos =
                  slice c.data (c.pos + 1) c2.pos ++ slice c.data c2.pos c'.pos :=
                (slice_append (by omega) (by omega)).symm
              have h3 : slice c.data c2.pos c'.pos =
                  slice c.data c2.pos (c2.pos + len) ++ slice c.data (c2.pos + len) c'.pos :=
                (slice_append (by omega) (by omega)).symm
              rw [hcidp] at hcanon
              rw [h1, h2, h3, slice_one hbyte, hcanon, ← hbytes, ← hser]
              simp [serializeSections, serializeSection, hbyteslen]
            · cases h
    · rename_i hrem
      simp only [Except.ok.injEq, Prod.mk.injEq] at h
      obtain ⟨hsecs, hc⟩ := h
      subst hsecs; subst hc
      exact ⟨[], by simp, rfl, le_refl _, by omega, by simp [serializeSections, slice_refl]⟩

/-- Ordering invariant of the skeleton section loop: on success, the kinds
of the newly parsed non-custom sections are strictly increasing, and all
strictly above the incoming `last_section`; custom sections are skipped by
the check. -/
theorem sectionsLoop_ordered {fuel : Nat} :
    ∀ {last : SectionId} {acc : List UnparsedSection} {c : Cursor}
      {secs : List UnparsedSection} {c' : Cursor},
      parseSectionsLoop fuel last acc c = .ok (secs, c') →
      ∃ rest, secs = acc ++ rest ∧
        List.Chain' (· < ·) (last.toNat :: nonCustomKinds rest) := by
  induction fuel with
  | zero =>
    intro last acc c secs c' h
    exact absurd h (by simp [parseSectionsLoop])
  | succ n ih =>
    intro last acc c secs c' h
    unfold parseSectionsLoop at h
    split at h
    · split at h
      · cases h
      · rename_i sec c1 hp
        split at h
        · rename_i hord
          obtain ⟨rest', hsecs, hchain⟩ := ih h
          refine ⟨sec :: rest', by simpa using hsecs, ?_⟩
          by_cases hcust : sec.section_id = SectionId.Custom
          · rw [if_pos hcust] at hchain
            simpa [nonCustomKinds, hcust] using hchain
          · rw [if_neg hcust] at hchain
            have hlt : last.toNat < sec.section_id.toNat := hord.resolve_left hcust
            have hkinds : nonCustomKinds (sec :: rest') =
                sec.section_id.toNat :: nonCustomKinds rest' := by
              simp [nonCustomKinds, hcust]
            rw [hkinds, List.chain'_cons]
            exact ⟨hlt, hchain⟩
        · cases h
    · simp only [Except.ok.injEq, Prod.mk.injEq] at h
      obtain ⟨hsecs, hc⟩ := h
      subst hsecs; subst hc
      exact ⟨[], by simp, by simp [nonCustomKinds]⟩

/-- Successful `parseSectionsOf` decomposes the input: the first 8 bytes are
magic and version, and the section loop starts at position 8. -/
theorem parseSectionsOf_ok {input : List Byte} {secs : List UnparsedSection} {c' : Cursor}
    (h : parseSectionsOf input = .ok (secs, c')) :
    slice input 0 4 = MAGIC_HASH ∧ slice input 4 8 = VERSION ∧ 8 ≤ input.length ∧
      parseSectionsLoop (input.length + 1) SectionId.Custom [] ⟨input, 8⟩ =
        .ok (secs, c') := by
  unfold parseSectionsOf at h
  split at h
  · cases h
  · rename_i magic c1 hm
    obtain ⟨hc1d, hc1p, hb1, hmagic⟩ := readBytes_ok hm
    simp only at hc1d hc1p hmagic
    split at h
    · rename_i hmeq
      split at h
      · cases h
      · rename_i version c2 hv
        obtain ⟨hc2d, hc2p, hb2, hversion⟩ := readBytes_ok hv
        rw [hc1d] at hc2d
        rw [hc1p] at hc2p
        split at h
        · rename_i hveq
          have hlen : 8 ≤ input.length := by
            have := hb2 (by omega)
            rw [hc1d, hc1p] at this
            omega
          have hc2 : c2 = ⟨input, 8⟩ := by
            obtain ⟨d, p⟩ := c2
            simp only [Cursor.mk.injEq]
            exact ⟨hc2d, hc2p⟩
          rw [hc2] at h
          refine ⟨?_, ?_, hlen, h⟩
          · rw [hmagic] at hmeq
            exact hmeq
          · rw [hc1d, hc1p] at hversion
            rw [hversion] at hveq
            exact hveq
        · cases h
    · cases h

/-- The fused then-branch accumulator loop of the source If decoder equals
the two-phase spec-side description: first the sequence up to the first
terminator, then the dispatch on that terminator. -/
theorem decodeIfArms_eq_spec : ∀ (fuel : Nat) (c : Cursor),
    decodeIfArms fuel c =
      match decodeThenUntilTerm fuel c with
      | .error e => .error e
      | .ok ((thn, term), f, c2) =>
        if term = END then .ok ((thn, []), c2)
        else
          match decodeSeq f c2 with
          | .error e => .error e
          | .ok (els, c3) => .ok ((thn, els), c3) := by
  intro fuel
  induction fuel with
  | zero => intro c; rfl
  | succ n ih =>
    intro c
    unfold decodeIfArms decodeThenUntilTerm
    cases readByte c with
    | error e => rfl
    | ok p =>
      obtain ⟨b, c1⟩ := p
      by_cases hEnd : b = END
      · subst hEnd; rfl
      · by_cases h05 : b = 0x05
        · subst h05; rfl
        · dsimp only
          rw [if_neg hEnd, if_neg h05, if_neg hEnd, if_neg h05]
          cases decodeInstruction n b c1 with
          | error e => rfl
          | ok q =>
            obtain ⟨i, c2⟩ := q
            dsimp only
            rw [ih c2]
            cases decodeThenUntilTerm n c2 with
            | error e => rfl
            | ok r =>
              obtain ⟨⟨is, t⟩, f, c3⟩ := r
              dsimp only
              by_cases hT : t = END
              · subst hT; rfl
              · rw [if_neg hT, if_neg hT]
                cases decodeSeq f c3 with
                | error e => rfl
                | ok s => obtain ⟨els, c4⟩ := s; rfl

/-! ## Claim theorems -/

/-- C1: the claim says a Start section always fails to parse.  The code does
the opposite: `ensure!(!idxs.is_empty(), "Start functions are not
supported.")` rejects an EMPTY index vector and accepts a non-empty one, so
a start section with content bytes `[0x01, 0x00]` (a one-element vector
holding function index 0) parses successfully and the whole pipeline yields
a Module — contradicting both the claim and the code's own error message. -/
theorem startSection_nonempty_accepted_bug :
    parseAll parseStartSection [0x01, 0x00] = .ok ⟨⟩ ∧
    isErr (parse_skeleton [0x00, 0x61, 0x73, 0x6D, 0x01, 0x00, 0x00, 0x00,
      0x08, 0x02, 0x01, 0x00] >>= parse_module) = false ∧
    isErr (parseAll parseStartSection [0x00]) = true :=
  ⟨rfl, rfl, rfl⟩

/-- C2 counterexample: the claim fails as stated.  The section length of
this input is the padded (non-canonical) LEB128 encoding `[0x80, 0x00]` of
0; the skeleton parser accepts it, but re-serializing with the LEB128
length produces the canonical `[0x00]`, so the round trip does not
reproduce the input. -/
theorem skeleton_roundtrip_counterexample :
    parseSectionsOf [0x00, 0x61, 0x73, 0x6D, 0x01, 0x00, 0x00, 0x00, 0x00, 0x80, 0x00] =
      .ok ([⟨SectionId.Custom, []⟩],
        ⟨[0x00, 0x61, 0x73, 0x6D, 0x01, 0x00, 0x00, 0x00, 0x00, 0x80, 0x00], 11⟩) ∧
    isErr (parse_skeleton
      [0x00, 0x61, 0x73, 0x6D, 0x01, 0x00, 0x00, 0x00, 0x00, 0x80, 0x00]) = false ∧
    MAGIC_HASH ++ VERSION ++ serializeSections [⟨SectionId.Custom, []⟩] ≠
      [0x00, 0x61, 0x73, 0x6D, 0x01, 0x00, 0x00, 0x00, 0x00, 0x80, 0x00] :=
  ⟨rfl, rfl, by decide⟩

/-- C2 (amended): if additionally every section-length field of the input
is canonically (minimally) LEB128-encoded, then concatenating the magic,
the version, and every parsed section (kind tag, LEB128 length of its
bytes, the bytes) in input order reproduces the input exactly. -/
theorem skeleton_roundtrip_canonical (input : List Byte) (secs : List UnparsedSection)
    (c' : Cursor) (h : parseSectionsOf input = .ok (secs, c'))
    (hall : c'.pos = input.length) (hcanon : canonicalLengths input = true) :
    MAGIC_HASH ++ VERSION ++ serializeSections secs = input := by
  obtain ⟨hmag, hver, hlen8, hloop⟩ := parseSectionsOf_ok h
  obtain ⟨rest, hsecs, hdata, hge, hle, hser⟩ :=
    sectionsLoop_roundtrip hloop hcanon hlen8
  simp only [List.nil_append] at hsecs
  subst hsecs
  simp only at hser
  rw [hall] at hser
  rw [← hmag, ← hver, hser]
  rw [slice_append (l := input) (a := 0) (m := 4) (by omega) (by omega),
    slice_append (l := input) (a := 0) (m := 8) (by omega) (by omega)]
  simp [slice]

theorem skeleton_roundtrip_canonical_witness :
    MAGIC_HASH ++ VERSION ++ serializeSections [⟨SectionId.Custom, [0x61]⟩] =
      [0x00, 0x61, 0x73, 0x6D, 0x01, 0x00, 0x00, 0x00, 0x00, 0x01, 0x61] :=
  skeleton_roundtrip_canonical
    [0x00, 0x61, 0x73, 0x6D, 0x01, 0x00, 0x00, 0x00, 0x00, 0x01, 0x61]
    [⟨SectionId.Custom, [0x61]⟩]
    ⟨[0x00, 0x61, 0x73, 0x6D, 0x01, 0x00, 0x00, 0x00, 0x00, 0x01, 0x61], 11⟩
    rfl rfl rfl

/-- C3: on success the kinds of the non-custom sections are strictly
increasing in input order (so a duplicate or out-of-order non-custom
section always fails — the contrapositive), custom sections being exempt
from the check; concretely, a well-formed Code section before a well-formed
Function section fails, while custom sections interleaved anywhere
parse. -/
theorem skeleton_section_ordering :
    (∀ (input : List Byte) (secs : List UnparsedSection) (c' : Cursor),
      parseSectionsOf input = .ok (secs, c') →
      List.Chain' (· < ·) (nonCustomKinds secs)) ∧
    isErr (parse_skeleton
      [0x00, 0x61, 0x73, 0x6D, 0x01, 0x00, 0x00, 0x00,
       0x0A, 0x01, 0x00, 0x03, 0x01, 0x00]) = true ∧
    isErr (parse_skeleton
      [0x00, 0x61, 0x73, 0x6D, 0x01, 0x00, 0x00, 0x00,
       0x00, 0x00, 0x03, 0x01, 0x00, 0x00, 0x00, 0x0A, 0x01, 0x00, 0x00, 0x00]) = false := by
  refine ⟨?_, rfl, rfl⟩
  intro input secs c' h
  obtain ⟨-, -, -, hloop⟩ := parseSectionsOf_ok h
  obtain ⟨rest, hsecs, hchain⟩ := sectionsLoop_ordered hloop
  simp only [List.nil_append] at hsecs
  subst hsecs
  exact hchain.tail

theorem skeleton_section_ordering_witness :
    List.Chain' (· < ·) (nonCustomKinds
      [⟨SectionId.Custom, []⟩, ⟨SectionId.Function, [0x00]⟩, ⟨SectionId.Custom, []⟩,
       ⟨SectionId.Code, [0x00]⟩, ⟨SectionId.Custom, []⟩]) :=
  skeleton_section_ordering.1
    [0x00, 0x61, 0x73, 0x6D, 0x01, 0x00, 0x00, 0x00,
     0x00, 0x00, 0x03, 0x01, 0x00, 0x00, 0x00, 0x0A, 0x01, 0x00, 0x00, 0x00]
    [⟨SectionId.Custom, []⟩, ⟨SectionId.Function, [0x00]⟩, ⟨SectionId.Custom, []⟩,
     ⟨SectionId.Code, [0x00]⟩, ⟨SectionId.Custom, []⟩]
    ⟨[0x00, 0x61, 0x73, 0x6D, 0x01, 0x00, 0x00, 0x00,
      0x00, 0x00, 0x03, 0x01, 0x00, 0x00, 0x00, 0x0A, 0x01, 0x00, 0x00, 0x00], 20⟩
    rfl

/-- C4: given the declared size and a successful decode of locals plus body
expression, the Code parser succeeds exactly when the consumed byte count
(from just after the size field to the end of the expression) equals the
declared size; any mismatch is a parse error. -/
theorem code_size_exact_match (c c1 cL cE : Cursor) (size : Nat)
    (locals : List Local) (expr : Expression)
    (hsize : parseU32 c = .ok (size, c1))
    (hloc : parseVec parseLocal c1 = .ok (locals, cL))
    (hexp : parseExpression cL = .ok (expr, cE)) :
    (cE.pos - c1.pos = size → parseCode c = .ok (⟨locals, expr⟩, cE)) ∧
    (cE.pos - c1.pos ≠ size → isErr (parseCode c) = true) := by
  unfold parseCode
  rw [hsize]
  dsimp only
  rw [hloc]
  dsimp only
  rw [hexp]
  dsimp only
  constructor
  · intro hm; rw [if_pos hm]
  · intro hm; rw [if_neg hm]; rfl

theorem code_size_exact_match_witness :
    parseCode ⟨[0x02, 0x00, 0x0B], 0⟩ =
      .ok (⟨[], ⟨[]⟩⟩, ⟨[0x02, 0x00, 0x0B], 3⟩) :=
  (code_size_exact_match ⟨[0x02, 0x00, 0x0B], 0⟩ ⟨[0x02, 0x00, 0x0B], 1⟩
    ⟨[0x02, 0x00, 0x0B], 2⟩ ⟨[0x02, 0x00, 0x0B], 3⟩ 2 [] ⟨[]⟩ rfl rfl rfl).1 rfl

/-- C5: the If decoder equals its spec-side description — the then-branch
is the sequence up to the first terminator at that nesting level, an else
marker (0x05) starts an else-branch decoded up to the end marker, and an
end marker yields an empty else-branch; concretely,
`if (i32) then [i32.const 1] else [i32.const 0] end` decodes to an If node
with one-element branches, and omitting the else marker gives an empty
else-branch. -/
theorem if_decode_spec :
    (∀ (fuel : Nat) (c : Cursor), decodeInstruction fuel 0x04 c = specIfDecode fuel c) ∧
    parseExpression ⟨[0x04, 0x7F, 0x41, 0x01, 0x05, 0x41, 0x00, 0x0B, 0x0B], 0⟩ =
      .ok (⟨[.If (.ValueType .I32) [.I32Const 1] [.I32Const 0]]⟩,
        ⟨[0x04, 0x7F, 0x41, 0x01, 0x05, 0x41, 0x00, 0x0B, 0x0B], 9⟩) ∧
    parseExpression ⟨[0x04, 0x7F, 0x41, 0x01, 0x0B, 0x0B], 0⟩ =
      .ok (⟨[.If (.ValueType .I32) [.I32Const 1] []]⟩,
        ⟨[0x04, 0x7F, 0x41, 0x01, 0x0B, 0x0B], 6⟩) := by
  refine ⟨?_, rfl, rfl⟩
  intro fuel c
  match fuel with
  | 0 => rfl
  | n + 1 =>
    have hL : decodeInstruction (n + 1) 0x04 c =
        (match parseBlockType c with
         | .error e => .error e
         | .ok (ty, c1) =>
           match decodeIfArms n c1 with
           | .error e => .error e
           | .ok ((thn, els), c2) => .ok (.If ty thn els, c2)) := rfl
    rw [hL]
    have hR : specIfDecode (n + 1) c =
        (match parseBlockType c with
         | .error e => .error e
         | .ok (ty, c1) =>
           match decodeThenUntilTerm n c1 with
           | .error e => .error e
           | .ok ((then_branch, term), f, c2) =>
             if term = END then .ok (.If ty then_branch [], c2)
             else
               match decodeSeq f c2 with
               | .error e => .error e
               | .ok (else_branch, c3) =>
                 .ok (.If ty then_branch else_branch, c3)) := rfl
    rw [hR]
    cases parseBlockType c with
    | error e => rfl
    | ok p =>
      obtain ⟨ty, c1⟩ := p
      dsimp only
      rw [decodeIfArms_eq_spec n c1]
      cases decodeThenUntilTerm n c1 with
      | error e => rfl
      | ok r =>
        obtain ⟨⟨thn, t⟩, f, c2⟩ := r
        dsimp only
        by_cases hT : t = END
        · subst hT; rfl
        · rw [if_neg hT, if_neg hT]
          cases decodeSeq f c2 with
          | error e => rfl
          | ok q => obtain ⟨els, c3⟩ := q; rfl

/-- C7: the ValueType parser accepts exactly the tags 0x7F (I32) and 0x7E
(I64); every other byte is a parse error (in particular the floating-point
tags 0x7D/0x7C), so no other value type is representable. -/
theorem valueType_tags_only (c : Cursor) (b : Byte) (c1 : Cursor)
    (h : readByte c = .ok (b, c1)) :
    parseValueType c =
      if b = 0x7F then .ok (.I32, c1)
      else if b = 0x7E then .ok (.I64, c1)
      else .error "Unsupported value type" := by
  unfold parseValueType
  rw [h]

theorem valueType_tags_only_witness :
    parseValueType ⟨[0x7D], 0⟩ = .error "Unsupported value type" := by
  have := valueType_tags_only ⟨[0x7D], 0⟩ 0x7D ⟨[0x7D], 1⟩ rfl
  simpa using this

/-- C8: the initial capacity of the vector decoder is `min(len,
MAX_PREALLOCATED_BYTES / max 1 size)` — bounded by the declared length, by
the per-element cap, and by the constant `MAX_PREALLOCATED_BYTES`, never
proportional to an adversarial length; and a declared length of three
billion with only two bytes of input left fails deterministically (the
element loop aborts at the first failing element). -/
theorem vec_bounded_allocation :
    (∀ (sizeOfA len : Nat),
      vecInitialCapacity sizeOfA len ≤ len ∧
      vecInitialCapacity sizeOfA len ≤ MAX_PREALLOCATED_BYTES / max 1 sizeOfA ∧
      vecInitialCapacity sizeOfA len ≤ MAX_PREALLOCATED_BYTES) ∧
    isErr (parseVec parseU32 ⟨lebEncode 3000000000 ++ [0xFF, 0xFF], 0⟩) = true := by
  refine ⟨?_, rfl⟩
  intro s n
  refine ⟨Nat.min_le_left _ _, Nat.min_le_right _ _, ?_⟩
  calc vecInitialCapacity s n ≤ MAX_PREALLOCATED_BYTES / max 1 s := Nat.min_le_right _ _
    _ ≤ MAX_PREALLOCATED_BYTES := Nat.div_le_self _ _

/-- C9: every primitive read either fails (aborting the pipeline — an
`Except.error` carries no cursor) or succeeds with the position advanced by
exactly the bytes the value occupies, never moving backwards and never
exceeding the input length. -/
theorem cursor_read_invariants :
    (∀ (c : Cursor) (b : Byte) (c' : Cursor), readByte c = .ok (b, c') →
      c'.data = c.data ∧ c'.pos = c.pos + 1 ∧ c'.pos ≤ c.data.length) ∧
    (∀ (c : Cursor) (v : Nat) (c' : Cursor), parseU32 c = .ok (v, c') →
      c'.data = c.data ∧ c.pos < c'.pos ∧ c'.pos ≤ c.pos + 5 ∧ c'.pos ≤ c.data.length) ∧
    (∀ (c : Cursor) (v : Nat) (c' : Cursor), parseU64 c = .ok (v, c') →
      c'.data = c.data ∧ c.pos < c'.pos ∧ c'.pos ≤ c.pos + 10 ∧ c'.pos ≤ c.data.length) ∧
    (∀ (c : Cursor) (v : Int) (c' : Cursor), parseI32 c = .ok (v, c') →
      c'.data = c.data ∧ c.pos < c'.pos ∧ c'.pos ≤ c.pos + 5 ∧ c'.pos ≤ c.data.length) ∧
    (∀ (c : Cursor) (v : Int) (c' : Cursor), parseI64 c = .ok (v, c') →
      c'.data = c.data ∧ c.pos < c'.pos ∧ c'.pos ≤ c.pos + 10 ∧ c'.pos ≤ c.data.length) ∧
    (∀ (c : Cursor) (bs : List Byte) (c' : Cursor), parseByteSlice c = .ok (bs, c') →
      c'.data = c.data ∧ c.pos < c'.pos ∧ c'.pos ≤ c.data.length ∧
      ∃ (len : Nat) (c1 : Cursor), parseU32 c = .ok (len, c1) ∧ bs.length = len ∧
        c'.pos = c1.pos + len) := by
  refine ⟨?_, ?_, ?_, ?_, ?_, ?_⟩
  · intro c b c' h
    obtain ⟨hd, hp, hlt, -⟩ := readByte_ok h
    exact ⟨hd, hp, by omega⟩
  · intro c v c' h; exact parseU32_ok h
  · intro c v c' h; exact parseU64_ok h
  · intro c v c' h; exact parseI32_ok h
  · intro c v c' h; exact parseI64_ok h
  · intro c bs c' h
    obtain ⟨len, c1, hu, hle, hbs, hbslen, hcd, hcp⟩ := parseByteSlice_ok h
    obtain ⟨hd1, hlt1, -, -⟩ := parseU32_ok hu
    have hlen : c1.data.length = c.data.length := by rw [hd1]
    refine ⟨hcd.trans hd1, by omega, by omega, len, c1, hu, hbslen, hcp⟩

theorem cursor_read_invariants_witness :
    parseU32 ⟨[0x85, 0x01], 0⟩ = .ok (133, ⟨[0x85, 0x01], 2⟩) ∧
      ((⟨[0x85, 0x01], 2⟩ : Cursor).data = (⟨[0x85, 0x01], 0⟩ : Cursor).data ∧
       (⟨[0x85, 0x01], 0⟩ : Cursor).pos < (⟨[0x85, 0x01], 2⟩ : Cursor).pos ∧
       (⟨[0x85, 0x01], 2⟩ : Cursor).pos ≤ (⟨[0x85, 0x01], 0⟩ : Cursor).pos + 5 ∧
       (⟨[0x85, 0x01], 2⟩ : Cursor).pos ≤ (⟨[0x85, 0x01], 0⟩ : Cursor).data.length) :=
  ⟨rfl, cursor_read_invariants.2.1 ⟨[0x85, 0x01], 0⟩ 133 ⟨[0x85, 0x01], 2⟩ rfl⟩

/-- C10: `strip` empties the custom-section list and leaves all eleven
non-custom section fields unchanged. -/
theorem strip_frame (s : Skeleton) :
    (strip s).custom = [] ∧
    (strip s).ty = s.ty ∧ (strip s).«import» = s.«import» ∧ (strip s).func = s.func ∧
    (strip s).table = s.table ∧ (strip s).memory = s.memory ∧
    (strip s).global = s.global ∧ (strip s).«export» = s.«export» ∧
    (strip s).start = s.start ∧ (strip s).element = s.element ∧
    (strip s).code = s.code ∧ (strip s).data = s.data :=
  ⟨rfl, rfl, rfl, rfl, rfl, rfl, rfl, rfl, rfl, rfl, rfl, rfl⟩

/-- C6: every opcode byte outside the supported set -- in particular every
floating-point or SIMD opcode -- makes `decodeInstruction` fail immediately
(for every fuel and cursor state), so such an instruction can never appear
in a parsed module. -/
theorem unsupported_opcode_rejected :
    (∀ (b : Byte), b ∉ supportedOpcodes →
      ∀ (fuel : Nat) (c : Cursor), isErr (decodeInstruction fuel b c) = true) ∧
    (∀ b ∈ floatingPointOpcodes, b ∉ supportedOpcodes) := by
  refine ⟨?_, by decide⟩
  intro b hb fuel c
  have hne : ∀ k, k ∈ supportedOpcodes → ¬ b = k :=
    fun k hk he => hb (by rw [he]; exact hk)
  match fuel with
  | 0 => rfl
  | n + 1 =>
    unfold decodeInstruction
    rw [if_neg (hne 0x00 (by decide)), if_neg (hne 0x01 (by decide)), if_neg (hne 0x02 (by decide)), if_neg (hne 0x03 (by decide))]
    rw [if_neg (hne 0x04 (by decide)), if_neg (hne 0x0C (by decide)), if_neg (hne 0x0D (by decide)), if_neg (hne 0x0E (by decide))]
    rw [if_neg (hne 0x0F (by decide)), if_neg (hne 0x10 (by decide)), if_neg (hne 0x11 (by decide)), if_neg (hne 0x1A (by decide))]
    rw [if_neg (hne 0x1B (by decide)), if_neg (hne 0x20 (by decide)), if_neg (hne 0x21 (by decide)), if_neg (hne 0x22 (by decide))]
    rw [if_neg (hne 0x23 (by decide)), if_neg (hne 0x24 (by decide)), if_neg (hne 0x28 (by decide)), if_neg (hne 0x29 (by decide))]
    rw [if_neg (hne 0x2C (by decide)), if_neg (hne 0x2D (by decide)), if_neg (hne 0x2E (by decide)), if_neg (hne 0x2F (by decide))]
    rw [if_neg (hne 0x30 (by decide)), if_neg (hne 0x31 (by decide)), if_neg (hne 0x32 (by decide)), if_neg (hne 0x33 (by decide))]
    rw [if_neg (hne 0x34 (by decide)), if_neg (hne 0x35 (by decide)), if_neg (hne 0x36 (by decide)), if_neg (hne 0x37 (by decide))]
    rw [if_neg (hne 0x3A (by decide)), if_neg (hne 0x3B (by decide)), if_neg (hne 0x3C (by decide)), if_neg (hne 0x3D (by decide))]
    rw [if_neg (hne 0x3E (by decide)), if_neg (hne 0x3F (by decide)), if_neg (hne 0x40 (by decide)), if_neg (hne 0x41 (by decide))]
    rw [if_neg (hne 0x42 (by decide)), if_neg (hne 0x45 (by decide)), if_neg (hne 0x46 (by decide)), if_neg (hne 0x47 (by decide))]
    rw [if_neg (hne 0x48 (by decide)), if_neg (hne 0x49 (by decide)), if_neg (hne 0x4A (by decide)), if_neg (hne 0x4B (by decide))]
    rw [if_neg (hne 0x4C (by decide)), if_neg (hne 0x4D (by decide)), if_neg (hne 0x4E (by decide)), if_neg (hne 0x4F (by decide))]
    rw [if_neg (hne 0x50 (by decide)), if_neg (hne 0x51 (by decide)), if_neg (hne 0x52 (by decide)), if_neg (hne 0x53 (by decide))]
    rw [if_neg (hne 0x54 (by decide)), if_neg (hne 0x55 (by decide)), if_neg (hne 0x56 (by decide)), if_neg (hne 0x57 (by decide))]
    rw [if_neg (hne 0x58 (by decide)), if_neg (hne 0x59 (by decide)), if_neg (hne 0x5A (by decide)), if_neg (hne 0x67 (by decide))]
    rw [if_neg (hne 0x68 (by decide)), if_neg (hne 0x69 (by decide)), if_neg (hne 0x6A (by decide)), if_neg (hne 0x6B (by decide))]
    rw [if_neg (hne 0x6C (by decide)), if_neg (hne 0x6D (by decide)), if_neg (hne 0x6E (by decide)), if_neg (hne 0x6F (by decide))]
    rw [if_neg (hne 0x70 (by decide)), if_neg (hne 0x71 (by decide)), if_neg (hne 0x72 (by decide)), if_neg (hne 0x73 (by decide))]
    rw [if_neg (hne 0x74 (by decide)), if_neg (hne 0x75 (by decide)), if_neg (hne 0x76 (by decide)), if_neg (hne 0x77 (by decide))]
    rw [if_neg (hne 0x78 (by decide)), if_neg (hne 0x79 (by decide)), if_neg (hne 0x7A (by decide)), if_neg (hne 0x7B (by decide))]
    rw [if_neg (hne 0x7C (by decide)), if_neg (hne 0x7D (by decide)), if_neg (hne 0x7E (by decide)), if_neg (hne 0x7F (by decide))]
    rw [if_neg (hne 0x80 (by decide)), if_neg (hne 0x81 (by decide)), if_neg (hne 0x82 (by decide)), if_neg (hne 0x83 (by decide))]
    rw [if_neg (hne 0x84 (by decide)), if_neg (hne 0x85 (by decide)), if_neg (hne 0x86 (by decide)), if_neg (hne 0x87 (by decide))]
    rw [if_neg (hne 0x88 (by decide)), if_neg (hne 0x89 (by decide)), if_neg (hne 0x8A (by decide)), if_neg (hne 0xA7 (by decide))]
    rw [if_neg (hne 0xAC (by decide)), if_neg (hne 0xAD (by decide))]
    rfl

theorem unsupported_opcode_rejected_witness :
    isErr (decodeInstruction 1 0x43 ⟨[], 0⟩) = true ∧
      isErr (decodeInstruction 1 0xFD ⟨[0x0F, 0x0B], 0⟩) = true :=
  ⟨unsupported_opcode_rejected.1 0x43 (by decide) 1 ⟨[], 0⟩,
   unsupported_opcode_rejected.1 0xFD (by decide) 1 ⟨[0x0F, 0x0B], 0⟩⟩

end Wasm
